import Mathlib

/-!
Verification development for the erc721-kit settlement engines
(contracts/RoyaltyEngine.sol, contracts/ERC721Escrow.sol,
contracts/ERC721Marketplace.sol).

Modelling conventions.

* Addresses are `Nat`; `0` plays the role of `address(0)`.  `uint256`
  values (prices, fees, basis points, timestamps, ids) are `Nat`.
* Solidity 0.8 checked subtraction is modelled explicitly by
  `checkedSub`, which returns an error exactly when the EVM would
  revert with an arithmetic underflow: the payment-split claims are
  about that branch.  Checked addition/multiplication overflow
  (possible only for amounts on the order of 2^256) is not modelled;
  whenever a checked multiplication succeeds on chain its value agrees
  with the `Nat` value used here, so every on-chain success is a
  success of this model with the same numbers.
* `mapping` storage is a total function with the zero-initialised
  record as default; updates go through `upd`.
* `keccak256(abi.encodePacked(...))` ids are modelled by their
  preimage tuples (an injective model of the hash).
* External contracts (the ERC721 registry, an EIP-2981 royalty
  implementation) are oracles supplied per call; a `try ... catch`
  around an external call is an `Option` result (`none` = the call
  reverted).  Outgoing `transfer`s of ETH and NFTs are reported in the
  operation's result rather than executed against a modelled balance.
* Each public function is a Lean function from the call context and
  the contract state to `Except String` of the new state (plus the
  transfers it performs); an `Except.error` models a revert, hence no
  state change.  `nonReentrant` needs no model in this sequential
  setting.
-/

/-- Pointwise update of a total-function map, as a Solidity mapping store. -/
def upd {α β : Type} [DecidableEq α] (m : α → β) (k : α) (v : β) : α → β :=
  fun x => if x = k then v else m x

/-- Solidity `require(cond, msg)`: continue with `k` when `cond` holds,
revert with `msg` otherwise. -/
def req {α : Type} (b : Prop) [Decidable b] (msg : String) (k : Except String α) :
    Except String α :=
  if b then k else .error msg

/-- Solidity 0.8 checked subtraction: reverts on underflow. -/
def checkedSub (a b : Nat) : Except String Nat :=
  if b ≤ a then .ok (a - b) else .error "arithmetic underflow"

/-- Extract the success value of an operation, with an explicit fallback
(used only to name the states of concrete demonstration runs, all of which
do succeed). -/
def okOr {α : Type} (r : Except String α) (fallback : α) : α :=
  match r with
  | .ok x => x
  | .error _ => fallback

/-! ## RoyaltyEngine (contracts/RoyaltyEngine.sol) -/

/-- Storage record `RoyaltyInfo { address recipient; uint256 percentage }`
(percentage in basis points, 1% = 100). -/
structure RoyaltyInfo where
  recipient : Nat
  percentage : Nat
deriving DecidableEq, Repr

/-- Zero-initialised `RoyaltyInfo`, the mapping default. -/
def RoyaltyInfo.zero : RoyaltyInfo := ⟨0, 0⟩

/-- Storage of the RoyaltyEngine contract. -/
structure RoyaltyState where
  contractRoyalties : Nat → RoyaltyInfo
  tokenRoyalties : Nat × Nat → RoyaltyInfo
  defaultRoyalty : RoyaltyInfo
  owner : Nat

/-- External world as seen by RoyaltyEngine: ERC165 probe, the optional
EIP-2981 call, and the ownership probes used for setter authorisation.
`none` models a reverting external call (the `catch` branches). -/
structure RoyaltyExt where
  supportsRoyaltyStd : Nat → Bool
  royaltyInfo : Nat → Nat → Nat → Option (Nat × Nat)
  contractOwner : Nat → Option Nat
  ownerOf : Nat → Nat → Option Nat

/-- `MAX_ROYALTY_PERCENTAGE` = 1000 bps = 10%. -/
def MAX_ROYALTY_PERCENTAGE : Nat := 1000

/-- RoyaltyEngine constructor: default royalty zeroed. -/
def initRoyaltyState (owner : Nat) : RoyaltyState :=
  { contractRoyalties := fun _ => RoyaltyInfo.zero
    tokenRoyalties := fun _ => RoyaltyInfo.zero
    defaultRoyalty := RoyaltyInfo.zero
    owner := owner }

/-- Internal `_isContractOwner`: `try Ownable(nft).owner() == account catch false`. -/
def isContractOwner (ext : RoyaltyExt) (nftContract account : Nat) : Bool :=
  match ext.contractOwner nftContract with
  | some o => o == account
  | none => false

/-- Internal `_isTokenOwner`: `try IERC721(nft).ownerOf(id) == account catch false`. -/
def isTokenOwner (ext : RoyaltyExt) (nftContract tokenId account : Nat) : Bool :=
  match ext.ownerOf nftContract tokenId with
  | some o => o == account
  | none => false

/-- The function `setDefaultRoyalty(recipient, percentage)` (owner only). -/
def setDefaultRoyalty (sender : Nat) (s : RoyaltyState) (recipient percentage : Nat) :
    Except String RoyaltyState :=
  req (sender = s.owner) "Ownable: caller is not the owner" <|
  req (percentage ≤ MAX_ROYALTY_PERCENTAGE) "Royalty too high" <|
  req (percentage > 0 → recipient ≠ 0) "Invalid recipient" <|
  .ok { s with defaultRoyalty := ⟨recipient, percentage⟩ }

/-- The function `setContractRoyalty(nftContract, recipient, percentage)`. -/
def setContractRoyalty (ext : RoyaltyExt) (sender : Nat) (s : RoyaltyState)
    (nftContract recipient percentage : Nat) : Except String RoyaltyState :=
  req (sender = s.owner ∨ isContractOwner ext nftContract sender) "Not authorized" <|
  req (percentage ≤ MAX_ROYALTY_PERCENTAGE) "Royalty too high" <|
  req (percentage > 0 → recipient ≠ 0) "Invalid recipient" <|
  .ok { s with contractRoyalties := upd s.contractRoyalties nftContract ⟨recipient, percentage⟩ }

/-- The function `setTokenRoyalty(nftContract, tokenId, recipient, percentage)`. -/
def setTokenRoyalty (ext : RoyaltyExt) (sender : Nat) (s : RoyaltyState)
    (nftContract tokenId recipient percentage : Nat) : Except String RoyaltyState :=
  req (sender = s.owner ∨ isTokenOwner ext nftContract tokenId sender ∨
        isContractOwner ext nftContract sender) "Not authorized" <|
  req (percentage ≤ MAX_ROYALTY_PERCENTAGE) "Royalty too high" <|
  req (percentage > 0 → recipient ≠ 0) "Invalid recipient" <|
  .ok { s with tokenRoyalties := upd s.tokenRoyalties (nftContract, tokenId) ⟨recipient, percentage⟩ }

/-- The EIP-2981 leg of `getRoyalty`: probe `supportsInterface`, then
`try royaltyInfo(...)`; the answer is kept only when the recipient is
non-zero and the amount is at most `salePrice / 10`, otherwise (including
a reverting call) the engine falls through to its own records. -/
def stdRoyaltyAnswer (ext : RoyaltyExt) (nftContract tokenId salePrice : Nat) :
    Option (Nat × Nat) :=
  if ext.supportsRoyaltyStd nftContract then
    match ext.royaltyInfo nftContract tokenId salePrice with
    | some (r, a) => if r ≠ 0 ∧ a ≤ salePrice / 10 then some (r, a) else none
    | none => none
  else none

/-- The view `getRoyalty(nftContract, tokenId, salePrice)`: EIP-2981 first
(answer accepted only when the recipient is non-zero and the amount is at
most `salePrice / 10`), then token-level, contract-level, default records,
else no royalty. -/
def getRoyalty (ext : RoyaltyExt) (s : RoyaltyState)
    (nftContract tokenId salePrice : Nat) : Nat × Nat :=
  match stdRoyaltyAnswer ext nftContract tokenId salePrice with
  | some ra => ra
  | none =>
    let tokenRoyalty := s.tokenRoyalties (nftContract, tokenId)
    if tokenRoyalty.recipient ≠ 0 ∨ tokenRoyalty.percentage > 0 then
      (tokenRoyalty.recipient, salePrice * tokenRoyalty.percentage / 10000)
    else
      let contractRoyalty := s.contractRoyalties nftContract
      if contractRoyalty.recipient ≠ 0 ∨ contractRoyalty.percentage > 0 then
        (contractRoyalty.recipient, salePrice * contractRoyalty.percentage / 10000)
      else
        if s.defaultRoyalty.recipient ≠ 0 ∨ s.defaultRoyalty.percentage > 0 then
          (s.defaultRoyalty.recipient, salePrice * s.defaultRoyalty.percentage / 10000)
        else
          (0, 0)

/-! ## Call context and the external ERC721 registry -/

/-- Per-call context: `block.timestamp`, `msg.sender`, `msg.value`. -/
structure Chain where
  timestamp : Nat
  sender : Nat
  value : Nat
deriving DecidableEq, Repr

/-- The external asset-ownership registry (IERC721) as an oracle:
`ownerOf` is `none` when the call would revert (nonexistent token). -/
structure NftEnv where
  ownerOf : Nat → Nat → Option Nat
  isApprovedForAll : Nat → Nat → Nat → Bool
  getApproved : Nat → Nat → Nat

/-- Shared constant `MAX_FEE_PERCENTAGE` = 1000 bps = 10% of both the
escrow and the marketplace contracts. -/
def MAX_FEE_PERCENTAGE : Nat := 1000

/-! ## ERC721Escrow (contracts/ERC721Escrow.sol) -/

inductive EscrowStatus where
  | Active
  | Completed
  | Cancelled
  | Disputed
deriving DecidableEq, Repr

/-- Storage struct `EscrowTransaction`. -/
structure EscrowTransaction where
  seller : Nat
  buyer : Nat
  nftContract : Nat
  tokenId : Nat
  price : Nat
  createdAt : Nat
  deadline : Nat
  status : EscrowStatus
  sellerApproved : Bool
  buyerApproved : Bool
deriving DecidableEq, Repr

/-- Zero-initialised `EscrowTransaction`, the mapping default
(enum default is its first member, `Active`). -/
def EscrowTransaction.zero : EscrowTransaction :=
  ⟨0, 0, 0, 0, 0, 0, 0, .Active, false, false⟩

/-- Storage of the ERC721Escrow contract.  `thisAddr` is `address(this)`. -/
structure EscrowState where
  escrowTransactions : Nat → EscrowTransaction
  whitelistedContracts : Nat → Bool
  userEscrows : Nat → List Nat
  nextEscrowId : Nat
  escrowFeePercentage : Nat
  disputeWindow : Nat
  feeRecipient : Nat
  disputeResolver : Nat
  owner : Nat
  paused : Bool
  thisAddr : Nat

/-- ERC721Escrow constructor state: `nextEscrowId = 1`, fee 250 bps,
dispute window 7 days, unpaused. -/
def initEscrowState (owner feeRecipient disputeResolver thisAddr : Nat) : EscrowState :=
  { escrowTransactions := fun _ => EscrowTransaction.zero
    whitelistedContracts := fun _ => false
    userEscrows := fun _ => []
    nextEscrowId := 1
    escrowFeePercentage := 250
    disputeWindow := 604800
    feeRecipient := feeRecipient
    disputeResolver := disputeResolver
    owner := owner
    paused := false
    thisAddr := thisAddr }

/-- The function `createEscrow(buyer, nftContract, tokenId, deadline)` with
`msg.value` as the held price.  On success the NFT moves from the seller
into the contract's custody. -/
def createEscrow (ch : Chain) (nft : NftEnv) (s : EscrowState)
    (buyer nftContract tokenId deadline : Nat) : Except String EscrowState :=
  req (¬ s.paused) "Pausable: paused" <|
  req (buyer ≠ 0) "Invalid buyer address" <|
  req (buyer ≠ ch.sender) "Buyer cannot be seller" <|
  req (s.whitelistedContracts nftContract = true) "Contract not whitelisted" <|
  req (0 < ch.value) "Price must be greater than 0" <|
  req (ch.timestamp < deadline) "Invalid deadline" <|
  req (nft.ownerOf nftContract tokenId = some ch.sender) "Seller doesn't own NFT" <|
  req (nft.isApprovedForAll nftContract ch.sender s.thisAddr = true ∨
       nft.getApproved nftContract tokenId = s.thisAddr) "Contract not approved" <|
  let escrowId := s.nextEscrowId
  let u1 := upd s.userEscrows ch.sender (s.userEscrows ch.sender ++ [escrowId])
  let u2 := upd u1 buyer (u1 buyer ++ [escrowId])
  .ok { s with
        nextEscrowId := s.nextEscrowId + 1
        escrowTransactions := upd s.escrowTransactions escrowId
          { seller := ch.sender, buyer := buyer, nftContract := nftContract,
            tokenId := tokenId, price := ch.value, createdAt := ch.timestamp,
            deadline := deadline, status := .Active,
            sellerApproved := false, buyerApproved := false }
        userEscrows := u2 }

/-- The split performed by `_completeEscrow`:
`fee = price * escrowFeePercentage / 10000` and the checked subtraction
`sellerAmount = price - fee`. -/
def completeEscrowSplit (price feePct : Nat) : Except String (Nat × Nat) :=
  match checkedSub price (price * feePct / 10000) with
  | .error msg => .error msg
  | .ok sellerAmount => .ok (sellerAmount, price * feePct / 10000)

/-- Internal `_completeEscrow`: marks the escrow `Completed`, sends the NFT
to the buyer, pays `sellerAmount` to the seller and `fee` (when positive)
to the fee recipient.  Result carries `(sellerAmount, fee)`. -/
def completeEscrowInternal (s : EscrowState) (escrowId : Nat) :
    Except String (EscrowState × Nat × Nat) :=
  match completeEscrowSplit (s.escrowTransactions escrowId).price s.escrowFeePercentage with
  | .error msg => .error msg
  | .ok (sellerAmount, fee) =>
      let e2 := { s.escrowTransactions escrowId with status := EscrowStatus.Completed }
      .ok ({ s with escrowTransactions := upd s.escrowTransactions escrowId e2 },
           sellerAmount, fee)

/-- The function `approveEscrow(escrowId)`: sets the calling party's
approval flag and completes the escrow when both flags are now true.
Result carries `some (sellerAmount, fee)` exactly when completion ran. -/
def approveEscrow (ch : Chain) (s : EscrowState) (escrowId : Nat) :
    Except String (EscrowState × Option (Nat × Nat)) :=
  req (0 < escrowId ∧ escrowId < s.nextEscrowId) "Invalid escrow ID" <|
  let e := s.escrowTransactions escrowId
  req (e.status = .Active) "Escrow not active" <|
  req (ch.sender = e.seller ∨ ch.sender = e.buyer) "Not authorized" <|
  let e1 := if ch.sender = e.seller then { e with sellerApproved := true }
            else { e with buyerApproved := true }
  let s1 := { s with escrowTransactions := upd s.escrowTransactions escrowId e1 }
  if e1.sellerApproved = true ∧ e1.buyerApproved = true then
    match completeEscrowInternal s1 escrowId with
    | .error msg => .error msg
    | .ok (s2, sa, fee) => .ok (s2, some (sa, fee))
  else
    .ok (s1, none)

/-- The function `cancelEscrow(escrowId)`: seller, buyer, or — once past the
deadline — anyone; returns the NFT to the seller and refunds the held price
to the buyer.  Result carries `(nftReturnedTo, refundToBuyer)`. -/
def cancelEscrow (ch : Chain) (s : EscrowState) (escrowId : Nat) :
    Except String (EscrowState × Nat × Nat) :=
  req (0 < escrowId ∧ escrowId < s.nextEscrowId) "Invalid escrow ID" <|
  let e := s.escrowTransactions escrowId
  req (e.status = .Active) "Escrow not active" <|
  req (ch.sender = e.seller ∨ ch.sender = e.buyer ∨ e.deadline < ch.timestamp)
      "Not authorized to cancel" <|
  let e2 := { e with status := EscrowStatus.Cancelled }
  .ok ({ s with escrowTransactions := upd s.escrowTransactions escrowId e2 },
       e.seller, e.price)

/-- The function `initiateDispute(escrowId)`. -/
def initiateDispute (ch : Chain) (s : EscrowState) (escrowId : Nat) :
    Except String EscrowState :=
  req (0 < escrowId ∧ escrowId < s.nextEscrowId) "Invalid escrow ID" <|
  let e := s.escrowTransactions escrowId
  req (e.status = .Active) "Escrow not active" <|
  req (ch.sender = e.seller ∨ ch.sender = e.buyer) "Not authorized" <|
  req (ch.timestamp ≤ e.deadline + s.disputeWindow) "Dispute window closed" <|
  let e2 := { e with status := EscrowStatus.Disputed }
  .ok { s with escrowTransactions := upd s.escrowTransactions escrowId e2 }

/-- The function `resolveDispute(escrowId, favorBuyer)` (dispute resolver
only): `favorBuyer` completes the escrow, otherwise it is cancelled with
the NFT back to the seller and a full refund to the buyer.  Result carries
`some (sellerAmount, fee)` exactly when the completion payout ran. -/
def resolveDispute (ch : Chain) (s : EscrowState) (escrowId : Nat) (favorBuyer : Bool) :
    Except String (EscrowState × Option (Nat × Nat)) :=
  req (ch.sender = s.disputeResolver) "Only dispute resolver" <|
  req (0 < escrowId ∧ escrowId < s.nextEscrowId) "Invalid escrow ID" <|
  let e := s.escrowTransactions escrowId
  req (e.status = .Disputed) "Escrow not disputed" <|
  if favorBuyer then
    match completeEscrowInternal s escrowId with
    | .error msg => .error msg
    | .ok (s2, sa, fee) => .ok (s2, some (sa, fee))
  else
    let e2 := { e with status := EscrowStatus.Cancelled }
    .ok ({ s with escrowTransactions := upd s.escrowTransactions escrowId e2 }, none)

/-- The owner function `setContractWhitelist` of ERC721Escrow. -/
def escrowSetContractWhitelist (ch : Chain) (s : EscrowState) (nftContract : Nat)
    (whitelisted : Bool) : Except String EscrowState :=
  req (ch.sender = s.owner) "Ownable: caller is not the owner" <|
  .ok { s with whitelistedContracts := upd s.whitelistedContracts nftContract whitelisted }

/-- The owner function `setEscrowFee` (capped at `MAX_FEE_PERCENTAGE`). -/
def setEscrowFee (ch : Chain) (s : EscrowState) (newFeePercentage : Nat) :
    Except String EscrowState :=
  req (ch.sender = s.owner) "Ownable: caller is not the owner" <|
  req (newFeePercentage ≤ MAX_FEE_PERCENTAGE) "Fee too high" <|
  .ok { s with escrowFeePercentage := newFeePercentage }

/-- The owner function `setFeeRecipient` of ERC721Escrow. -/
def escrowSetFeeRecipient (ch : Chain) (s : EscrowState) (newFeeRecipient : Nat) :
    Except String EscrowState :=
  req (ch.sender = s.owner) "Ownable: caller is not the owner" <|
  req (newFeeRecipient ≠ 0) "Invalid address" <|
  .ok { s with feeRecipient := newFeeRecipient }

/-- The owner function `setDisputeResolver`. -/
def setDisputeResolver (ch : Chain) (s : EscrowState) (newDisputeResolver : Nat) :
    Except String EscrowState :=
  req (ch.sender = s.owner) "Ownable: caller is not the owner" <|
  req (newDisputeResolver ≠ 0) "Invalid address" <|
  .ok { s with disputeResolver := newDisputeResolver }

/-- The owner function `pause` of ERC721Escrow (OpenZeppelin `_pause`
requires the contract not to be paused already). -/
def escrowPause (ch : Chain) (s : EscrowState) : Except String EscrowState :=
  req (ch.sender = s.owner) "Ownable: caller is not the owner" <|
  req (¬ s.paused) "Pausable: paused" <|
  .ok { s with paused := true }

/-- The owner function `unpause` of ERC721Escrow. -/
def escrowUnpause (ch : Chain) (s : EscrowState) : Except String EscrowState :=
  req (ch.sender = s.owner) "Ownable: caller is not the owner" <|
  req (s.paused) "Pausable: not paused" <|
  .ok { s with paused := false }

/-- The owner function `emergencyWithdraw` of ERC721Escrow (only while
paused); it sweeps the contract's ETH balance to the owner — the balance
itself is not part of the modelled storage. -/
def escrowEmergencyWithdraw (ch : Chain) (s : EscrowState) : Except String EscrowState :=
  req (ch.sender = s.owner) "Ownable: caller is not the owner" <|
  req (s.paused) "Pausable: not paused" <|
  .ok s

/-! ## ERC721Marketplace (contracts/ERC721Marketplace.sol) -/

/-- Listing ids are `keccak256(nftContract, tokenId, block.timestamp)`;
modelled by the preimage. -/
abbrev ListingId := Nat × Nat × Nat

/-- Offer ids are `keccak256(msg.sender, nftContract, tokenId, block.timestamp)`;
modelled by the preimage. -/
abbrev OfferId := Nat × Nat × Nat × Nat

/-- Storage struct `Listing`. -/
structure Listing where
  seller : Nat
  nftContract : Nat
  tokenId : Nat
  price : Nat
  createdAt : Nat
  expiresAt : Nat
  active : Bool
deriving DecidableEq, Repr

/-- Zero-initialised `Listing`, the mapping default. -/
def Listing.zero : Listing := ⟨0, 0, 0, 0, 0, 0, false⟩

/-- Storage struct `Offer`. -/
structure Offer where
  buyer : Nat
  nftContract : Nat
  tokenId : Nat
  amount : Nat
  createdAt : Nat
  expiresAt : Nat
  active : Bool
deriving DecidableEq, Repr

/-- Zero-initialised `Offer`, the mapping default. -/
def Offer.zero : Offer := ⟨0, 0, 0, 0, 0, 0, false⟩

/-- Storage of the ERC721Marketplace contract.  `tokenToListingId` maps an
asset to the id of its tracked listing (`none` models the zero id). -/
structure MarketState where
  listings : ListingId → Listing
  offers : OfferId → Offer
  tokenToListingId : Nat × Nat → Option ListingId
  userListings : Nat → List ListingId
  userOffers : Nat → List OfferId
  whitelistedContracts : Nat → Bool
  marketplaceFeePercentage : Nat
  feeRecipient : Nat
  totalListings : Nat
  totalSales : Nat
  totalVolume : Nat
  owner : Nat
  paused : Bool
  thisAddr : Nat

/-- ERC721Marketplace constructor state: fee 250 bps, unpaused, empty maps. -/
def initMarketState (owner feeRecipient thisAddr : Nat) : MarketState :=
  { listings := fun _ => Listing.zero
    offers := fun _ => Offer.zero
    tokenToListingId := fun _ => none
    userListings := fun _ => []
    userOffers := fun _ => []
    whitelistedContracts := fun _ => false
    marketplaceFeePercentage := 250
    feeRecipient := feeRecipient
    totalListings := 0
    totalSales := 0
    totalVolume := 0
    owner := owner
    paused := false
    thisAddr := thisAddr }

/-- Monetary outcome of `buyItem` / `acceptOffer`: the computed split and
the overpayment refund (always 0 for `acceptOffer`). -/
structure SaleOuts where
  sellerAmount : Nat
  marketplaceFee : Nat
  royaltyRecipient : Nat
  royaltyAmount : Nat
  refund : Nat
deriving DecidableEq, Repr

/-- The payment split computed by `buyItem` and `acceptOffer`:
`marketplaceFee = price * marketplaceFeePercentage / 10000`, then the
checked subtraction `sellerAmount = price - marketplaceFee - royaltyAmount`. -/
def marketSplit (price feePct royaltyAmount : Nat) : Except String (Nat × Nat) :=
  match checkedSub price (price * feePct / 10000) with
  | .error msg => .error msg
  | .ok x =>
    match checkedSub x royaltyAmount with
    | .error msg => .error msg
    | .ok sellerAmount => .ok (sellerAmount, price * feePct / 10000)

/-- Internal `_cancelListing`: deactivates the listing and deletes the
asset's `tokenToListingId` entry. -/
def cancelListingInternal (s : MarketState) (listingId : ListingId) : MarketState :=
  let l := s.listings listingId
  { s with
    listings := upd s.listings listingId { l with active := false }
    tokenToListingId := upd s.tokenToListingId (l.nftContract, l.tokenId) none }

/-- The function `listItem(nftContract, tokenId, price, duration)`: derives
the id from the asset and the timestamp, implicitly cancels a prior active
listing for the same asset, then records the new active listing. -/
def listItem (ch : Chain) (nft : NftEnv) (s : MarketState)
    (nftContract tokenId price duration : Nat) : Except String MarketState :=
  req (¬ s.paused) "Pausable: paused" <|
  req (s.whitelistedContracts nftContract = true) "Contract not whitelisted" <|
  req (0 < price) "Price must be greater than 0" <|
  req (0 < duration) "Duration must be greater than 0" <|
  req (nft.ownerOf nftContract tokenId = some ch.sender) "Not token owner" <|
  req (nft.isApprovedForAll nftContract ch.sender s.thisAddr = true ∨
       nft.getApproved nftContract tokenId = s.thisAddr) "Contract not approved" <|
  let listingId : ListingId := (nftContract, tokenId, ch.timestamp)
  req (¬ (s.listings listingId).active = true) "Already listed" <|
  let s1 :=
    match s.tokenToListingId (nftContract, tokenId) with
    | some eid => if (s.listings eid).active = true then cancelListingInternal s eid else s
    | none => s
  .ok { s1 with
        listings := upd s1.listings listingId
          { seller := ch.sender, nftContract := nftContract, tokenId := tokenId,
            price := price, createdAt := ch.timestamp,
            expiresAt := ch.timestamp + duration, active := true }
        tokenToListingId := upd s1.tokenToListingId (nftContract, tokenId) (some listingId)
        userListings := upd s1.userListings ch.sender (s1.userListings ch.sender ++ [listingId])
        totalListings := s1.totalListings + 1 }

/-- The function `buyItem(listingId)` with `msg.value` as payment.  The
`royalty` argument is the external `royaltyEngine.getRoyalty` call.  On
success the NFT goes to the caller, the seller / fee recipient / royalty
recipient are paid the split, and `refund = msg.value - price` goes back
to the caller. -/
def buyItem (ch : Chain) (nft : NftEnv) (royalty : Nat → Nat → Nat → Nat × Nat)
    (s : MarketState) (listingId : ListingId) : Except String (MarketState × SaleOuts) :=
  req (¬ s.paused) "Pausable: paused" <|
  req ((s.listings listingId).active = true) "Listing not active" <|
  req (ch.timestamp < (s.listings listingId).expiresAt) "Listing expired" <|
  let listing := s.listings listingId
  req (listing.price ≤ ch.value) "Insufficient payment" <|
  req (ch.sender ≠ listing.seller) "Cannot buy own item" <|
  req (nft.ownerOf listing.nftContract listing.tokenId = some listing.seller)
      "Seller no longer owns NFT" <|
  let ra := royalty listing.nftContract listing.tokenId listing.price
  match marketSplit listing.price s.marketplaceFeePercentage ra.2 with
  | .error msg => .error msg
  | .ok (sellerAmount, fee) =>
      .ok ({ s with
              listings := upd s.listings listingId { listing with active := false }
              tokenToListingId := upd s.tokenToListingId (listing.nftContract, listing.tokenId) none
              totalSales := s.totalSales + 1
              totalVolume := s.totalVolume + listing.price },
           { sellerAmount := sellerAmount, marketplaceFee := fee,
             royaltyRecipient := ra.1, royaltyAmount := ra.2,
             refund := ch.value - listing.price })

/-- The function `cancelListing(listingId)` (seller or owner). -/
def cancelListing (ch : Chain) (s : MarketState) (listingId : ListingId) :
    Except String MarketState :=
  req (ch.sender = (s.listings listingId).seller ∨ ch.sender = s.owner) "Not authorized" <|
  req ((s.listings listingId).active = true) "Listing not active" <|
  .ok (cancelListingInternal s listingId)

/-- The function `updateListing(listingId, newPrice)` (seller only, active
and unexpired listing). -/
def updateListing (ch : Chain) (s : MarketState) (listingId : ListingId) (newPrice : Nat) :
    Except String MarketState :=
  req ((s.listings listingId).active = true) "Listing not active" <|
  req (ch.timestamp < (s.listings listingId).expiresAt) "Listing expired" <|
  req (ch.sender = (s.listings listingId).seller) "Not listing owner" <|
  req (0 < newPrice) "Price must be greater than 0" <|
  let l2 := { s.listings listingId with price := newPrice }
  .ok { s with listings := upd s.listings listingId l2 }

/-- The function `createOffer(nftContract, tokenId, duration)` with
`msg.value` escrowed as the offer amount. -/
def createOffer (ch : Chain) (s : MarketState) (nftContract tokenId duration : Nat) :
    Except String MarketState :=
  req (¬ s.paused) "Pausable: paused" <|
  req (s.whitelistedContracts nftContract = true) "Contract not whitelisted" <|
  req (0 < ch.value) "Offer must be greater than 0" <|
  req (0 < duration) "Duration must be greater than 0" <|
  let offerId : OfferId := (ch.sender, nftContract, tokenId, ch.timestamp)
  .ok { s with
        offers := upd s.offers offerId
          { buyer := ch.sender, nftContract := nftContract, tokenId := tokenId,
            amount := ch.value, createdAt := ch.timestamp,
            expiresAt := ch.timestamp + duration, active := true }
        userOffers := upd s.userOffers ch.sender (s.userOffers ch.sender ++ [offerId]) }

/-- The function `acceptOffer(offerId)`: the asset owner accepts; the NFT
goes to the offer's buyer, the held amount is split as in `buyItem`, and a
tracked active listing for the asset is cancelled as a side effect. -/
def acceptOffer (ch : Chain) (nft : NftEnv) (royalty : Nat → Nat → Nat → Nat × Nat)
    (s : MarketState) (offerId : OfferId) : Except String (MarketState × SaleOuts) :=
  req (¬ s.paused) "Pausable: paused" <|
  req ((s.offers offerId).active = true) "Offer not active" <|
  req (ch.timestamp < (s.offers offerId).expiresAt) "Offer expired" <|
  let offer := s.offers offerId
  req (nft.ownerOf offer.nftContract offer.tokenId = some ch.sender) "Not token owner" <|
  req (nft.isApprovedForAll offer.nftContract ch.sender s.thisAddr = true ∨
       nft.getApproved offer.nftContract offer.tokenId = s.thisAddr) "Contract not approved" <|
  let s1 := { s with offers := upd s.offers offerId { offer with active := false } }
  let ra := royalty offer.nftContract offer.tokenId offer.amount
  match marketSplit offer.amount s.marketplaceFeePercentage ra.2 with
  | .error msg => .error msg
  | .ok (sellerAmount, fee) =>
      let s2 :=
        match s1.tokenToListingId (offer.nftContract, offer.tokenId) with
        | some eid => if (s1.listings eid).active = true then cancelListingInternal s1 eid else s1
        | none => s1
      .ok ({ s2 with totalSales := s2.totalSales + 1,
                     totalVolume := s2.totalVolume + offer.amount },
           { sellerAmount := sellerAmount, marketplaceFee := fee,
             royaltyRecipient := ra.1, royaltyAmount := ra.2, refund := 0 })

/-- The function `cancelOffer(offerId)` (buyer or owner, active unexpired
offer): deactivates and refunds the held amount to the offer's buyer.
Result carries `(refundTo, refundAmount)`. -/
def cancelOffer (ch : Chain) (s : MarketState) (offerId : OfferId) :
    Except String (MarketState × Nat × Nat) :=
  req ((s.offers offerId).active = true) "Offer not active" <|
  req (ch.timestamp < (s.offers offerId).expiresAt) "Offer expired" <|
  req (ch.sender = (s.offers offerId).buyer ∨ ch.sender = s.owner) "Not authorized" <|
  .ok ({ s with offers := upd s.offers offerId { s.offers offerId with active := false } },
       (s.offers offerId).buyer, (s.offers offerId).amount)

/-- The owner function `setContractWhitelist` of ERC721Marketplace. -/
def marketSetContractWhitelist (ch : Chain) (s : MarketState) (nftContract : Nat)
    (whitelisted : Bool) : Except String MarketState :=
  req (ch.sender = s.owner) "Ownable: caller is not the owner" <|
  .ok { s with whitelistedContracts := upd s.whitelistedContracts nftContract whitelisted }

/-- The owner function `setMarketplaceFee` (capped at `MAX_FEE_PERCENTAGE`). -/
def setMarketplaceFee (ch : Chain) (s : MarketState) (newFeePercentage : Nat) :
    Except String MarketState :=
  req (ch.sender = s.owner) "Ownable: caller is not the owner" <|
  req (newFeePercentage ≤ MAX_FEE_PERCENTAGE) "Fee too high" <|
  .ok { s with marketplaceFeePercentage := newFeePercentage }

/-- The owner function `setFeeRecipient` of ERC721Marketplace. -/
def marketSetFeeRecipient (ch : Chain) (s : MarketState) (newFeeRecipient : Nat) :
    Except String MarketState :=
  req (ch.sender = s.owner) "Ownable: caller is not the owner" <|
  req (newFeeRecipient ≠ 0) "Invalid address" <|
  .ok { s with feeRecipient := newFeeRecipient }

/-- The owner function `pause` of ERC721Marketplace. -/
def marketPause (ch : Chain) (s : MarketState) : Except String MarketState :=
  req (ch.sender = s.owner) "Ownable: caller is not the owner" <|
  req (¬ s.paused) "Pausable: paused" <|
  .ok { s with paused := true }

/-- The owner function `unpause` of ERC721Marketplace. -/
def marketUnpause (ch : Chain) (s : MarketState) : Except String MarketState :=
  req (ch.sender = s.owner) "Ownable: caller is not the owner" <|
  req (s.paused) "Pausable: not paused" <|
  .ok { s with paused := false }

/-- The owner function `emergencyWithdraw` of ERC721Marketplace (only
while paused); sweeps the contract's ETH balance to the owner — the
balance itself is not part of the modelled storage. -/
def marketEmergencyWithdraw (ch : Chain) (s : MarketState) : Except String MarketState :=
  req (ch.sender = s.owner) "Ownable: caller is not the owner" <|
  req (s.paused) "Pausable: not paused" <|
  .ok s

/-! ## Reachability

One constructor per state-mutating public entry point.  `setRoyaltyEngine`
of the marketplace only swaps the address of the external royalty engine,
which is not part of the modelled storage (the engine is passed per call),
and the view functions mutate nothing. -/

/-- One successful public call of ERC721Marketplace. -/
inductive MStep : MarketState → MarketState → Prop where
  | listItem (ch : Chain) (nft : NftEnv) (c t p d : Nat) (s s2 : MarketState) :
      listItem ch nft s c t p d = .ok s2 → MStep s s2
  | buyItem (ch : Chain) (nft : NftEnv) (royalty : Nat → Nat → Nat → Nat × Nat)
      (lid : ListingId) (s s2 : MarketState) (outs : SaleOuts) :
      buyItem ch nft royalty s lid = .ok (s2, outs) → MStep s s2
  | cancelListing (ch : Chain) (lid : ListingId) (s s2 : MarketState) :
      cancelListing ch s lid = .ok s2 → MStep s s2
  | updateListing (ch : Chain) (lid : ListingId) (p : Nat) (s s2 : MarketState) :
      updateListing ch s lid p = .ok s2 → MStep s s2
  | createOffer (ch : Chain) (c t d : Nat) (s s2 : MarketState) :
      createOffer ch s c t d = .ok s2 → MStep s s2
  | acceptOffer (ch : Chain) (nft : NftEnv) (royalty : Nat → Nat → Nat → Nat × Nat)
      (oid : OfferId) (s s2 : MarketState) (outs : SaleOuts) :
      acceptOffer ch nft royalty s oid = .ok (s2, outs) → MStep s s2
  | cancelOffer (ch : Chain) (oid : OfferId) (s s2 : MarketState) (rto ramt : Nat) :
      cancelOffer ch s oid = .ok (s2, rto, ramt) → MStep s s2
  | setContractWhitelist (ch : Chain) (c : Nat) (w : Bool) (s s2 : MarketState) :
      marketSetContractWhitelist ch s c w = .ok s2 → MStep s s2
  | setMarketplaceFee (ch : Chain) (p : Nat) (s s2 : MarketState) :
      setMarketplaceFee ch s p = .ok s2 → MStep s s2
  | setFeeRecipient (ch : Chain) (a : Nat) (s s2 : MarketState) :
      marketSetFeeRecipient ch s a = .ok s2 → MStep s s2
  | pause (ch : Chain) (s s2 : MarketState) : marketPause ch s = .ok s2 → MStep s s2
  | unpause (ch : Chain) (s s2 : MarketState) : marketUnpause ch s = .ok s2 → MStep s s2
  | emergencyWithdraw (ch : Chain) (s s2 : MarketState) :
      marketEmergencyWithdraw ch s = .ok s2 → MStep s s2

/-- Marketplace states reachable from a fresh deployment. -/
inductive MReachable : MarketState → Prop where
  | init (owner feeRecipient thisAddr : Nat) :
      MReachable (initMarketState owner feeRecipient thisAddr)
  | step (s s2 : MarketState) : MReachable s → MStep s s2 → MReachable s2

/-- One successful public call of ERC721Escrow. -/
inductive EStep : EscrowState → EscrowState → Prop where
  | createEscrow (ch : Chain) (nft : NftEnv) (b c t dl : Nat) (s s2 : EscrowState) :
      createEscrow ch nft s b c t dl = .ok s2 → EStep s s2
  | approveEscrow (ch : Chain) (i : Nat) (s s2 : EscrowState) (outs : Option (Nat × Nat)) :
      approveEscrow ch s i = .ok (s2, outs) → EStep s s2
  | cancelEscrow (ch : Chain) (i : Nat) (s s2 : EscrowState) (nto ramt : Nat) :
      cancelEscrow ch s i = .ok (s2, nto, ramt) → EStep s s2
  | initiateDispute (ch : Chain) (i : Nat) (s s2 : EscrowState) :
      initiateDispute ch s i = .ok s2 → EStep s s2
  | resolveDispute (ch : Chain) (i : Nat) (fb : Bool) (s s2 : EscrowState)
      (outs : Option (Nat × Nat)) :
      resolveDispute ch s i fb = .ok (s2, outs) → EStep s s2
  | setContractWhitelist (ch : Chain) (c : Nat) (w : Bool) (s s2 : EscrowState) :
      escrowSetContractWhitelist ch s c w = .ok s2 → EStep s s2
  | setEscrowFee (ch : Chain) (p : Nat) (s s2 : EscrowState) :
      setEscrowFee ch s p = .ok s2 → EStep s s2
  | setFeeRecipient (ch : Chain) (a : Nat) (s s2 : EscrowState) :
      escrowSetFeeRecipient ch s a = .ok s2 → EStep s s2
  | setDisputeResolver (ch : Chain) (a : Nat) (s s2 : EscrowState) :
      setDisputeResolver ch s a = .ok s2 → EStep s s2
  | pause (ch : Chain) (s s2 : EscrowState) : escrowPause ch s = .ok s2 → EStep s s2
  | unpause (ch : Chain) (s s2 : EscrowState) : escrowUnpause ch s = .ok s2 → EStep s s2
  | emergencyWithdraw (ch : Chain) (s s2 : EscrowState) :
      escrowEmergencyWithdraw ch s = .ok s2 → EStep s s2

/-- Escrow states reachable from a fresh deployment. -/
inductive EReachable : EscrowState → Prop where
  | init (owner feeRecipient disputeResolver thisAddr : Nat) :
      EReachable (initEscrowState owner feeRecipient disputeResolver thisAddr)
  | step (s s2 : EscrowState) : EReachable s → EStep s s2 → EReachable s2

/-- Every stored royalty record is within the 10% cap (the invariant the
three setters enforce). -/
def BoundedRoyalties (s : RoyaltyState) : Prop :=
  s.defaultRoyalty.percentage ≤ 1000 ∧
  (∀ c, (s.contractRoyalties c).percentage ≤ 1000) ∧
  (∀ k, (s.tokenRoyalties k).percentage ≤ 1000)

/-- The listing-tracking invariant of the marketplace: every active
listing is the one its asset's `tokenToListingId` entry points to — hence
at most one active listing per (asset registry, asset id) pair. -/
def ListingInv (s : MarketState) : Prop :=
  ∀ lid : ListingId, (s.listings lid).active = true →
    s.tokenToListingId ((s.listings lid).nftContract, (s.listings lid).tokenId) = some lid

/-! ## View functions (no mutation) -/

/-- The view `getListing(listingId)`. -/
def getListing (s : MarketState) (listingId : ListingId) : Listing :=
  s.listings listingId

/-- The view `getOffer(offerId)`. -/
def getOffer (s : MarketState) (offerId : OfferId) : Offer :=
  s.offers offerId

/-- The view `getUserListings(user)`. -/
def getUserListings (s : MarketState) (user : Nat) : List ListingId :=
  s.userListings user

/-- The view `getEscrow(escrowId)`. -/
def getEscrow (s : EscrowState) (escrowId : Nat) : EscrowTransaction :=
  s.escrowTransactions escrowId

/-- The view `getUserEscrows(user)`. -/
def getUserEscrows (s : EscrowState) (user : Nat) : List Nat :=
  s.userEscrows user

/-! ## Concrete demonstration runs

Actors: owner 1, fee recipient 2, dispute resolver 3, the deployed
contract 4, seller 10, buyer 11; asset: registry 20, token 7. -/

/-- Demo asset registry: token 7 of registry 20 is owned by address 10 and
the deployed contract (address 4) is an approved operator for everyone. -/
def demoNft : NftEnv :=
  { ownerOf := fun c t => if c = 20 ∧ t = 7 then some 10 else none
    isApprovedForAll := fun _ _ _ => true
    getApproved := fun _ _ => 0 }

/-- Demo external royalty engine answer: 5% to address 3. -/
def demoRoyaltyCall : Nat → Nat → Nat → Nat × Nat :=
  fun _ _ p => (3, p / 20)

/-- Demo EIP-2981 world: registry 5 supports the standard and reports 5%
to address 9; ownership probes revert. -/
def demoRoyExt : RoyaltyExt :=
  { supportsRoyaltyStd := fun c => c == 5
    royaltyInfo := fun _ _ p => some (9, p / 20)
    contractOwner := fun _ => none
    ownerOf := fun _ _ => none }

/-- Fresh RoyaltyEngine deployment owned by address 1. -/
def demoRoyState : RoyaltyState := initRoyaltyState 1

/-- Fresh escrow deployment. -/
def demoEsc0 : EscrowState := initEscrowState 1 2 3 4

/-- Escrow run: owner whitelists registry 20. -/
def demoEsc1 : EscrowState :=
  okOr (escrowSetContractWhitelist ⟨0, 1, 0⟩ demoEsc0 20 true) demoEsc0

/-- Escrow run: seller 10 escrows token 7 for buyer 11 at price 1000 wei,
deadline 500 (escrow id 1). -/
def demoEsc2 : EscrowState :=
  okOr (createEscrow ⟨100, 10, 1000⟩ demoNft demoEsc1 11 20 7 500) demoEsc1

/-- Escrow run: the seller raises a dispute on escrow 1. -/
def demoEsc3 : EscrowState :=
  okOr (initiateDispute ⟨200, 10, 0⟩ demoEsc2 1) demoEsc2

/-- Escrow run: the resolver resolves escrow 1 in favour of the buyer. -/
def demoEsc4 : EscrowState :=
  (okOr (resolveDispute ⟨300, 3, 0⟩ demoEsc3 1 true) (demoEsc3, none)).1

/-- Escrow run (approval path): the seller approves escrow 1. -/
def demoEscA : EscrowState :=
  (okOr (approveEscrow ⟨150, 10, 0⟩ demoEsc2 1) (demoEsc2, none)).1

/-- Fresh marketplace deployment. -/
def demoM0 : MarketState := initMarketState 1 2 4

/-- Marketplace run: owner whitelists registry 20. -/
def demoM1 : MarketState :=
  okOr (marketSetContractWhitelist ⟨0, 1, 0⟩ demoM0 20 true) demoM0

/-- Marketplace run: seller 10 lists token 7 at price 1000 for 1000 s. -/
def demoM2 : MarketState :=
  okOr (listItem ⟨100, 10, 0⟩ demoNft demoM1 20 7 1000 1000) demoM1

/-- Marketplace run: buyer 11 offers 500 wei for token 7. -/
def demoM3 : MarketState :=
  okOr (createOffer ⟨110, 11, 500⟩ demoM2 20 7 1000) demoM2

/-- Marketplace run: owner pauses the contract. -/
def demoM4 : MarketState :=
  okOr (marketPause ⟨120, 1, 0⟩ demoM3) demoM3

/-- Marketplace run: buyer 11 cancels the offer while the contract is paused. -/
def demoM5 : MarketState :=
  (okOr (cancelOffer ⟨130, 11, 0⟩ demoM4 (11, 20, 7, 110)) (demoM4, 0, 0)).1

/-- Marketplace run (purchase path): buyer 11 buys listing (20, 7, 100)
from `demoM2` paying 1500 wei against the 1000 wei price, with a 5%
external royalty. -/
def demoBuy : MarketState × SaleOuts :=
  okOr (buyItem ⟨150, 11, 1500⟩ demoNft demoRoyaltyCall demoM2 (20, 7, 100))
    (demoM2, ⟨0, 0, 0, 0, 0⟩)

/-- Marketplace run (re-list path): seller 10 lists token 7 again at a new
price while the listing (20, 7, 100) is still active. -/
def demoRelist : MarketState :=
  okOr (listItem ⟨200, 10, 0⟩ demoNft demoM2 20 7 2000 1000) demoM2

/-! ## Basic lemmas about the modelling combinators -/

theorem upd_self {α β : Type} [DecidableEq α] (m : α → β) (k : α) (v : β) :
    upd m k v k = v := by
  simp [upd]

theorem upd_other {α β : Type} [DecidableEq α] (m : α → β) (k x : α) (v : β)
    (h : x ≠ k) : upd m k v x = m x := by
  simp [upd, h]

theorem req_ok {α : Type} (b : Prop) [Decidable b] (msg : String)
    (k : Except String α) (x : α) :
    req b msg k = .ok x ↔ b ∧ k = .ok x := by
  unfold req
  split <;> simp_all

theorem req_pos {α : Type} (b : Prop) [Decidable b] (msg : String)
    (k : Except String α) (h : b) : req b msg k = k :=
  if_pos h

theorem req_fail {α : Type} (b : Prop) [Decidable b] (msg : String)
    (k : Except String α) (h : ¬ b) : req b msg k = .error msg := by
  simp [req, h]

theorem checkedSub_ok (a b : Nat) (x : Nat) :
    checkedSub a b = .ok x ↔ b ≤ a ∧ x = a - b := by
  unfold checkedSub
  split <;> simp_all
  omega

theorem checkedSub_ok_of_le (a b : Nat) (h : b ≤ a) :
    checkedSub a b = .ok (a - b) := by
  simp [checkedSub, h]

/-- A basis-point royalty within the 1000 bps cap is at most a tenth of the
sale price. -/
theorem bps_div_le_tenth (p pct : Nat) (h : pct ≤ 1000) :
    p * pct / 10000 ≤ p / 10 := by
  have h1 : p * pct / 10000 ≤ p * 1000 / 10000 :=
    Nat.div_le_div_right (Nat.mul_le_mul_left p h)
  have h2 : p * 1000 / 10000 = p / 10 := by
    have : p * 1000 / 10000 = 1000 * p / (1000 * 10) := by ring_nf
    rw [this, Nat.mul_div_mul_left _ _ (by norm_num : 0 < 1000)]
  omega

/-! ## Payment-split lemmas -/

theorem marketSplit_ok_iff (price feePct royaltyAmount sa fee : Nat) :
    marketSplit price feePct royaltyAmount = .ok (sa, fee) ↔
      fee = price * feePct / 10000 ∧ fee + royaltyAmount ≤ price ∧
      sa = price - fee - royaltyAmount := by
  unfold marketSplit
  split <;> rename_i msg h1
  · rw [checkedSub] at h1
    split at h1 <;> simp_all
    omega
  · rw [checkedSub_ok] at h1
    split <;> rename_i msg2 h2
    · rw [checkedSub] at h2
      split at h2 <;> simp_all
      omega
    · rw [checkedSub_ok] at h2
      constructor
      · intro h
        injection h with h
        injection h with h3 h4
        omega
      · intro h
        obtain ⟨hf, hle, hsa⟩ := h
        subst hf
        congr 1
        refine Prod.ext ?_ ?_ <;> simp <;> omega

theorem marketSplit_sum (price feePct royaltyAmount sa fee : Nat)
    (h : marketSplit price feePct royaltyAmount = .ok (sa, fee)) :
    sa + fee + royaltyAmount = price := by
  rw [marketSplit_ok_iff] at h
  omega

theorem completeEscrowSplit_ok_iff (price feePct sa fee : Nat) :
    completeEscrowSplit price feePct = .ok (sa, fee) ↔
      fee = price * feePct / 10000 ∧ fee ≤ price ∧ sa = price - fee := by
  unfold completeEscrowSplit
  split <;> rename_i msg h1
  · rw [checkedSub] at h1
    split at h1 <;> simp_all
  · rw [checkedSub_ok] at h1
    constructor
    · intro h
      injection h with h
      injection h with h3 h4
      omega
    · intro h
      obtain ⟨hf, hle, hsa⟩ := h
      subst hf
      congr 1
      refine Prod.ext ?_ ?_ <;> simp <;> omega

theorem completeEscrowSplit_sum (price feePct sa fee : Nat)
    (h : completeEscrowSplit price feePct = .ok (sa, fee)) :
    sa + fee = price := by
  rw [completeEscrowSplit_ok_iff] at h
  omega

theorem fee_plus_royalty_le (price feePct royaltyAmount : Nat)
    (hf : feePct ≤ 1000) (hr : royaltyAmount ≤ price / 10) :
    price * feePct / 10000 + royaltyAmount ≤ price := by
  have h1 := bps_div_le_tenth price feePct hf
  have h2 := Nat.div_mul_le_self price 10
  omega

theorem marketSplit_ok_of_bounds (price feePct royaltyAmount : Nat)
    (hf : feePct ≤ 1000) (hr : royaltyAmount ≤ price / 10) :
    marketSplit price feePct royaltyAmount =
      .ok (price - price * feePct / 10000 - royaltyAmount, price * feePct / 10000) := by
  rw [marketSplit_ok_iff]
  exact ⟨rfl, fee_plus_royalty_le price feePct royaltyAmount hf hr, rfl⟩

/-! ## Escrow operation inversion lemmas -/

theorem completeEscrowInternal_ok (s : EscrowState) (i : Nat) (s2 : EscrowState)
    (sa fee : Nat) (h : completeEscrowInternal s i = .ok (s2, sa, fee)) :
    sa + fee = (s.escrowTransactions i).price ∧
    s2.escrowTransactions i =
      { s.escrowTransactions i with status := EscrowStatus.Completed } ∧
    (∀ j, j ≠ i → s2.escrowTransactions j = s.escrowTransactions j) ∧
    s2.nextEscrowId = s.nextEscrowId := by
  unfold completeEscrowInternal at h
  split at h
  · exact absurd h (by simp)
  · rename_i sa2 fee2 heq
    rw [completeEscrowSplit_ok_iff] at heq
    obtain ⟨hfee, hle, hsa⟩ := heq
    simp only [Except.ok.injEq, Prod.mk.injEq] at h
    obtain ⟨h1, h2, h3⟩ := h
    subst h1
    subst h2
    subst h3
    refine ⟨by omega, by simp [upd_self], fun j hj => by simp [upd_other _ _ _ _ hj], rfl⟩

theorem approveEscrow_ok_cases (ch : Chain) (s : EscrowState) (i : Nat)
    (s2 : EscrowState) (outs : Option (Nat × Nat))
    (h : approveEscrow ch s i = .ok (s2, outs)) :
    ((s2.escrowTransactions i).sellerApproved = (s.escrowTransactions i).sellerApproved ∨
     (s2.escrowTransactions i).buyerApproved = (s.escrowTransactions i).buyerApproved) ∧
    (((s2.escrowTransactions i).status = EscrowStatus.Completed ∧
      (s2.escrowTransactions i).sellerApproved = true ∧
      (s2.escrowTransactions i).buyerApproved = true ∧
      ∃ sa fee, outs = some (sa, fee) ∧ sa + fee = (s.escrowTransactions i).price) ∨
     ((s2.escrowTransactions i).status = EscrowStatus.Active ∧ outs = none ∧
      ((s2.escrowTransactions i).sellerApproved = false ∨
       (s2.escrowTransactions i).buyerApproved = false))) := by
  simp only [approveEscrow, req_ok] at h
  obtain ⟨hvalid, hact, hauth, h⟩ := h
  by_cases hse : ch.sender = (s.escrowTransactions i).seller
  · simp only [if_pos hse] at h
    split at h
    · rename_i hflags
      split at h
      · simp at h
      · rename_i v s2p sap feep heq
        simp only [Except.ok.injEq, Prod.mk.injEq] at h
        obtain ⟨h1, houts⟩ := h
        subst h1
        have hci := completeEscrowInternal_ok _ _ _ _ _ heq
        simp only [upd_self] at hci
        obtain ⟨hsum, hrec, hother, hnext⟩ := hci
        refine ⟨Or.inr (by simp [hrec]), Or.inl ⟨by simp [hrec], by simp [hrec],
          by simp [hrec]; simp_all, ⟨sap, feep, houts.symm, by simp_all⟩⟩⟩
    · rename_i hflags
      simp only [Except.ok.injEq, Prod.mk.injEq] at h
      obtain ⟨hs2, houts⟩ := h
      subst hs2
      simp only [upd_self]
      have hb : (s.escrowTransactions i).buyerApproved = false := by
        cases hbv : (s.escrowTransactions i).buyerApproved <;> simp_all
      exact ⟨Or.inr trivial, Or.inr ⟨hact, houts.symm, Or.inr hb⟩⟩
  · simp only [if_neg hse] at h
    split at h
    · rename_i hflags
      split at h
      · simp at h
      · rename_i v s2p sap feep heq
        simp only [Except.ok.injEq, Prod.mk.injEq] at h
        obtain ⟨h1, houts⟩ := h
        subst h1
        have hci := completeEscrowInternal_ok _ _ _ _ _ heq
        simp only [upd_self] at hci
        obtain ⟨hsum, hrec, hother, hnext⟩ := hci
        refine ⟨Or.inl (by simp [hrec]), Or.inl ⟨by simp [hrec], by simp [hrec]; simp_all,
          by simp [hrec], ⟨sap, feep, houts.symm, by simp_all⟩⟩⟩
    · rename_i hflags
      simp only [Except.ok.injEq, Prod.mk.injEq] at h
      obtain ⟨hs2, houts⟩ := h
      subst hs2
      simp only [upd_self]
      have hs : (s.escrowTransactions i).sellerApproved = false := by
        cases hsv : (s.escrowTransactions i).sellerApproved <;> simp_all
      exact ⟨Or.inl trivial, Or.inr ⟨hact, houts.symm, Or.inl hs⟩⟩

theorem resolveDispute_ok_cases (ch : Chain) (s : EscrowState) (i : Nat) (fb : Bool)
    (s2 : EscrowState) (outs : Option (Nat × Nat))
    (h : resolveDispute ch s i fb = .ok (s2, outs)) :
    ch.sender = s.disputeResolver ∧
    (s.escrowTransactions i).status = EscrowStatus.Disputed ∧
    (fb = true →
      (s2.escrowTransactions i).status = EscrowStatus.Completed ∧
      (s2.escrowTransactions i).sellerApproved = (s.escrowTransactions i).sellerApproved ∧
      (s2.escrowTransactions i).buyerApproved = (s.escrowTransactions i).buyerApproved ∧
      ∃ sa fee, outs = some (sa, fee) ∧ sa + fee = (s.escrowTransactions i).price) ∧
    (fb = false →
      (s2.escrowTransactions i).status = EscrowStatus.Cancelled ∧ outs = none) := by
  simp only [resolveDispute, req_ok] at h
  obtain ⟨hres, hvalid, hdisp, h⟩ := h
  cases fb
  · simp only [Bool.false_eq_true, if_false] at h
    simp only [Except.ok.injEq, Prod.mk.injEq] at h
    obtain ⟨hs2, houts⟩ := h
    subst hs2
    exact ⟨hres, hdisp, by simp, fun _ => ⟨by simp [upd_self], houts.symm⟩⟩
  · simp only [if_true] at h
    split at h
    · simp at h
    · rename_i v s2p sap feep heq
      simp only [Except.ok.injEq, Prod.mk.injEq] at h
      obtain ⟨h1, houts⟩ := h
      subst h1
      have hci := completeEscrowInternal_ok _ _ _ _ _ heq
      obtain ⟨hsum, hrec, hother, hnext⟩ := hci
      refine ⟨hres, hdisp, fun _ => ⟨by simp [hrec], by simp [hrec], by simp [hrec],
        ⟨sap, feep, houts.symm, by simp_all⟩⟩, by simp⟩

/-! ## Claim theorems: settlement splits (C1, C10) and escrow flags (C2) -/

/-- C1: every completed settlement splits the single held payment exactly:
a `buyItem` or `acceptOffer` sale computes `sellerAmount + marketplaceFee +
royaltyAmount = price`, and an escrow completion (through `approveEscrow`
or through `resolveDispute` in favour of the buyer) computes
`sellerAmount + fee = price` with no royalty leg — no remainder, no
leakage. -/
theorem settlement_split_exact :
    (∀ ch nft royalty s lid s2 outs, buyItem ch nft royalty s lid = .ok (s2, outs) →
      outs.sellerAmount + outs.marketplaceFee + outs.royaltyAmount =
        (s.listings lid).price) ∧
    (∀ ch nft royalty s oid s2 outs, acceptOffer ch nft royalty s oid = .ok (s2, outs) →
      outs.sellerAmount + outs.marketplaceFee + outs.royaltyAmount =
        (s.offers oid).amount) ∧
    (∀ ch s i s2 sa fee, approveEscrow ch s i = .ok (s2, some (sa, fee)) →
      sa + fee = (s.escrowTransactions i).price) ∧
    (∀ ch s i s2 sa fee, resolveDispute ch s i true = .ok (s2, some (sa, fee)) →
      sa + fee = (s.escrowTransactions i).price) := by
  refine ⟨?_, ?_, ?_, ?_⟩
  · intro ch nft royalty s lid s2 outs h
    simp only [buyItem, req_ok] at h
    obtain ⟨hp, hact, hexp, hval, hsell, hown, h⟩ := h
    split at h
    · simp at h
    · rename_i sa fee heq
      simp only [Except.ok.injEq, Prod.mk.injEq] at h
      obtain ⟨h1, h2⟩ := h
      subst h2
      simpa using marketSplit_sum _ _ _ _ _ heq
  · intro ch nft royalty s oid s2 outs h
    simp only [acceptOffer, req_ok] at h
    obtain ⟨hp, hact, hexp, hown, happ, h⟩ := h
    split at h
    · simp at h
    · rename_i sa fee heq
      simp only [Except.ok.injEq, Prod.mk.injEq] at h
      obtain ⟨h1, h2⟩ := h
      subst h2
      simpa using marketSplit_sum _ _ _ _ _ heq
  · intro ch s i s2 sa fee h
    have hc := approveEscrow_ok_cases ch s i s2 (some (sa, fee)) h
    rcases hc.2 with ⟨_, _, _, sa2, fee2, hsome, hsum⟩ | ⟨_, hnone, _⟩
    · simp only [Option.some.injEq, Prod.mk.injEq] at hsome
      obtain ⟨h1, h2⟩ := hsome
      subst h1
      subst h2
      exact hsum
    · simp at hnone
  · intro ch s i s2 sa fee h
    have hc := resolveDispute_ok_cases ch s i true s2 (some (sa, fee)) h
    obtain ⟨_, _, _, sa2, fee2, hsome, hsum⟩ := hc.2.2.1 rfl
    simp only [Option.some.injEq, Prod.mk.injEq] at hsome
    obtain ⟨h1, h2⟩ := hsome
    subst h1
    subst h2
    exact hsum

/-- C2 (amended): an escrow is completed by `approveEscrow` exactly when
both approval flags are true afterwards, and a single approval of an
escrow with both flags false leaves it `Active`; `resolveDispute` in
favour of the buyer, however, marks a `Disputed` escrow `Completed`
without touching either approval flag. -/
theorem escrow_completion_flags :
    (∀ ch s i s2 outs, approveEscrow ch s i = .ok (s2, outs) →
      ((s2.escrowTransactions i).status = EscrowStatus.Completed ↔
        (s2.escrowTransactions i).sellerApproved = true ∧
        (s2.escrowTransactions i).buyerApproved = true)) ∧
    (∀ ch s i s2 outs, approveEscrow ch s i = .ok (s2, outs) →
      (s.escrowTransactions i).sellerApproved = false →
      (s.escrowTransactions i).buyerApproved = false →
      (s2.escrowTransactions i).status = EscrowStatus.Active) ∧
    (∀ ch s i s2 sa fee, resolveDispute ch s i true = .ok (s2, some (sa, fee)) →
      (s2.escrowTransactions i).status = EscrowStatus.Completed ∧
      (s2.escrowTransactions i).sellerApproved = (s.escrowTransactions i).sellerApproved ∧
      (s2.escrowTransactions i).buyerApproved = (s.escrowTransactions i).buyerApproved) := by
  refine ⟨?_, ?_, ?_⟩
  · intro ch s i s2 outs h
    rcases (approveEscrow_ok_cases ch s i s2 outs h).2 with ⟨hst, hsa, hba, _⟩ | ⟨hst, _, hfl⟩
    · simp [hst, hsa, hba]
    · constructor
      · intro hco
        rw [hst] at hco
        cases hco
      · intro hfl2
        rcases hfl with hf | hf <;> simp_all
  · intro ch s i s2 outs h hsb hbb
    have hc := approveEscrow_ok_cases ch s i s2 outs h
    rcases hc.2 with ⟨hst, hsa, hba, _⟩ | ⟨hst, _, _⟩
    · rcases hc.1 with hinh | hinh <;> simp_all
    · exact hst
  · intro ch s i s2 sa fee h
    have hc := resolveDispute_ok_cases ch s i true s2 (some (sa, fee)) h
    obtain ⟨hst, hsa, hba, _⟩ := hc.2.2.1 rfl
    exact ⟨hst, hsa, hba⟩

/-- C2 counterexample: in the reachable state obtained by whitelist →
createEscrow → initiateDispute → resolveDispute(favorBuyer = true),
escrow 1 has status `Completed` while both of its approval flags are
still false, refuting "status = Completed iff both flags are true" for
reachable states. -/
theorem escrow_completed_without_approval_cex :
    EReachable demoEsc4 ∧
    (demoEsc4.escrowTransactions 1).status = EscrowStatus.Completed ∧
    (demoEsc4.escrowTransactions 1).sellerApproved = false ∧
    (demoEsc4.escrowTransactions 1).buyerApproved = false := by
  have h0 : EReachable demoEsc0 := EReachable.init 1 2 3 4
  have h1 : EReachable demoEsc1 :=
    EReachable.step _ _ h0 (EStep.setContractWhitelist ⟨0, 1, 0⟩ 20 true _ _ rfl)
  have h2 : EReachable demoEsc2 :=
    EReachable.step _ _ h1 (EStep.createEscrow ⟨100, 10, 1000⟩ demoNft 11 20 7 500 _ _ rfl)
  have h3 : EReachable demoEsc3 :=
    EReachable.step _ _ h2 (EStep.initiateDispute ⟨200, 10, 0⟩ 1 _ _ rfl)
  have h4 : EReachable demoEsc4 :=
    EReachable.step _ _ h3 (EStep.resolveDispute ⟨300, 3, 0⟩ 1 true _ _ (some (975, 25)) rfl)
  exact ⟨h4, rfl, rfl, rfl⟩

/-- C8: on an Active escrow, `cancelEscrow` before (or at) the deadline
succeeds exactly for the recorded seller or buyer, while strictly after
the deadline it succeeds for any caller; on success the NFT is returned
to the seller, the full held price is refunded to the buyer, and the
status becomes Cancelled. -/
theorem cancelEscrow_ok_of (ch : Chain) (s : EscrowState) (i : Nat)
    (hvalid : 0 < i ∧ i < s.nextEscrowId)
    (hact : (s.escrowTransactions i).status = EscrowStatus.Active)
    (hauth : ch.sender = (s.escrowTransactions i).seller ∨
      ch.sender = (s.escrowTransactions i).buyer ∨
      (s.escrowTransactions i).deadline < ch.timestamp) :
    cancelEscrow ch s i =
      .ok ({ s with escrowTransactions := upd s.escrowTransactions i { s.escrowTransactions i with status := EscrowStatus.Cancelled } }, (s.escrowTransactions i).seller, (s.escrowTransactions i).price) := by
  simp only [cancelEscrow, req_ok]
  exact ⟨hvalid, hact, hauth, trivial⟩

theorem cancelEscrow_deadline_auth (ch : Chain) (s : EscrowState) (i : Nat)
    (hvalid : 0 < i ∧ i < s.nextEscrowId)
    (hact : (s.escrowTransactions i).status = EscrowStatus.Active) :
    (ch.timestamp ≤ (s.escrowTransactions i).deadline →
      ((∃ r, cancelEscrow ch s i = .ok r) ↔
        ch.sender = (s.escrowTransactions i).seller ∨
        ch.sender = (s.escrowTransactions i).buyer)) ∧
    ((s.escrowTransactions i).deadline < ch.timestamp →
      ∃ s2, cancelEscrow ch s i =
        .ok (s2, (s.escrowTransactions i).seller, (s.escrowTransactions i).price)) ∧
    (∀ s2 nto ramt, cancelEscrow ch s i = .ok (s2, nto, ramt) →
      nto = (s.escrowTransactions i).seller ∧ ramt = (s.escrowTransactions i).price ∧
      (s2.escrowTransactions i).status = EscrowStatus.Cancelled) := by
  refine ⟨?_, ?_, ?_⟩
  · intro hle
    constructor
    · rintro ⟨r, hr⟩
      simp only [cancelEscrow, req_ok] at hr
      obtain ⟨_, _, hauth, _⟩ := hr
      rcases hauth with ha | ha | ha
      · exact Or.inl ha
      · exact Or.inr ha
      · omega
    · intro hauth
      exact ⟨_, cancelEscrow_ok_of ch s i hvalid hact (by tauto)⟩
  · intro hgt
    exact ⟨_, cancelEscrow_ok_of ch s i hvalid hact (by tauto)⟩
  · intro s2 nto ramt h
    simp only [cancelEscrow, req_ok] at h
    obtain ⟨_, _, _, h⟩ := h
    simp only [Except.ok.injEq, Prod.mk.injEq] at h
    obtain ⟨h1, h2, h3⟩ := h
    subst h1
    exact ⟨h2.symm, h3.symm, by simp [upd_self]⟩

/-- C6: `buyItem` always fails on an inactive or expired listing and when
the caller is the listing's seller; on success the buyer is refunded
exactly `payment - price` and the listing becomes inactive. -/
theorem buyItem_guards_and_refund :
    (∀ ch nft royalty s lid x,
      ((s.listings lid).active = false ∨ (s.listings lid).expiresAt ≤ ch.timestamp) →
      buyItem ch nft royalty s lid ≠ .ok x) ∧
    (∀ ch nft royalty s lid x, ch.sender = (s.listings lid).seller →
      buyItem ch nft royalty s lid ≠ .ok x) ∧
    (∀ ch nft royalty s lid s2 outs, buyItem ch nft royalty s lid = .ok (s2, outs) →
      (s.listings lid).price ≤ ch.value ∧
      outs.refund = ch.value - (s.listings lid).price ∧
      (s2.listings lid).active = false) := by
  refine ⟨?_, ?_, ?_⟩
  · intro ch nft royalty s lid x hbad h
    simp only [buyItem, req_ok] at h
    obtain ⟨hp, hact, hexp, _⟩ := h
    rcases hbad with hb | hb
    · simp_all
    · omega
  · intro ch nft royalty s lid x hsame h
    simp only [buyItem, req_ok] at h
    obtain ⟨_, _, _, _, hsell, _⟩ := h
    exact hsell hsame
  · intro ch nft royalty s lid s2 outs h
    simp only [buyItem, req_ok] at h
    obtain ⟨hp, hact, hexp, hval, hsell, hown, h⟩ := h
    split at h
    · simp at h
    · rename_i sa fee heq
      simp only [Except.ok.injEq, Prod.mk.injEq] at h
      obtain ⟨h1, h2⟩ := h
      subst h1
      subst h2
      exact ⟨hval, by simp, by simp [upd_self]⟩

/-- C7: a successful `cancelOffer` can only have been invoked by the
offer's buyer or the owner, refunds exactly the held amount to the buyer
and deactivates the offer; any other caller is rejected. -/
theorem cancelOffer_auth_refund :
    (∀ ch s oid s2 rto ramt, cancelOffer ch s oid = .ok (s2, rto, ramt) →
      (ch.sender = (s.offers oid).buyer ∨ ch.sender = s.owner) ∧
      rto = (s.offers oid).buyer ∧ ramt = (s.offers oid).amount ∧
      (s2.offers oid).active = false) ∧
    (∀ ch s oid x, ch.sender ≠ (s.offers oid).buyer → ch.sender ≠ s.owner →
      cancelOffer ch s oid ≠ .ok x) := by
  constructor
  · intro ch s oid s2 rto ramt h
    simp only [cancelOffer, req_ok] at h
    obtain ⟨hact, hexp, hauth, h⟩ := h
    simp only [Except.ok.injEq, Prod.mk.injEq] at h
    obtain ⟨h1, h2, h3⟩ := h
    subst h1
    exact ⟨hauth, h2.symm, h3.symm, by simp [upd_self]⟩
  · intro ch s oid x hb ho h
    simp only [cancelOffer, req_ok] at h
    obtain ⟨_, _, hauth, _⟩ := h
    tauto

/-- C10: with the marketplace fee at most 1000 bps (which is what
`setMarketplaceFee` enforces) and the royalty amount at most a tenth of
the price (the royalty engine's output bound), the checked subtraction
`sellerAmount = price - marketplaceFee - royaltyAmount` of
`buyItem`/`acceptOffer` never underflows: the split always succeeds and
neither operation can revert with the arithmetic-underflow error. -/
theorem split_no_underflow :
    (∀ price feePct royaltyAmount, feePct ≤ 1000 → royaltyAmount ≤ price / 10 →
      marketSplit price feePct royaltyAmount =
        .ok (price - price * feePct / 10000 - royaltyAmount, price * feePct / 10000)) ∧
    (∀ ch s p s2, setMarketplaceFee ch s p = .ok s2 →
      s2.marketplaceFeePercentage ≤ 1000) ∧
    (∀ ch nft royalty s lid, s.marketplaceFeePercentage ≤ 1000 →
      (royalty (s.listings lid).nftContract (s.listings lid).tokenId
        (s.listings lid).price).2 ≤ (s.listings lid).price / 10 →
      buyItem ch nft royalty s lid ≠ .error "arithmetic underflow") ∧
    (∀ ch nft royalty s oid, s.marketplaceFeePercentage ≤ 1000 →
      (royalty (s.offers oid).nftContract (s.offers oid).tokenId
        (s.offers oid).amount).2 ≤ (s.offers oid).amount / 10 →
      acceptOffer ch nft royalty s oid ≠ .error "arithmetic underflow") := by
  refine ⟨marketSplit_ok_of_bounds, ?_, ?_, ?_⟩
  · intro ch s p s2 h
    simp only [setMarketplaceFee, req_ok] at h
    obtain ⟨ho, hle, h⟩ := h
    simp only [Except.ok.injEq] at h
    subst h
    simpa [MAX_FEE_PERCENTAGE] using hle
  · intro ch nft royalty s lid hf hr hcontra
    simp only [buyItem, req] at hcontra
    rw [marketSplit_ok_of_bounds _ _ _ hf hr] at hcontra
    split_ifs at hcontra <;> simp_all
  · intro ch nft royalty s oid hf hr hcontra
    simp only [acceptOffer, req] at hcontra
    rw [marketSplit_ok_of_bounds _ _ _ hf hr] at hcontra
    split_ifs at hcontra <;> simp_all

/-! ## Claim theorems: royalty resolution (C4, C9) -/

/-- C4: `getRoyalty` resolves deterministically in order: an EIP-2981
answer is accepted only when its recipient is non-zero and its amount at
most a tenth of the sale price, and is otherwise ignored; failing that
the token-level record, then the contract-level record, then the global
default, then no royalty, with percentage layers computing
`salePrice * bps / 10000`. -/
theorem royalty_resolution_order (ext : RoyaltyExt) (s : RoyaltyState) (c t p : Nat) :
    (∀ r a, ext.supportsRoyaltyStd c = true → ext.royaltyInfo c t p = some (r, a) →
      r ≠ 0 → a ≤ p / 10 → getRoyalty ext s c t p = (r, a)) ∧
    ((ext.supportsRoyaltyStd c = false ∨ ext.royaltyInfo c t p = none ∨
      (∀ r a, ext.royaltyInfo c t p = some (r, a) → r = 0 ∨ p / 10 < a)) →
      stdRoyaltyAnswer ext c t p = none) ∧
    (stdRoyaltyAnswer ext c t p = none →
      (((s.tokenRoyalties (c, t)).recipient ≠ 0 ∨ (s.tokenRoyalties (c, t)).percentage > 0) →
        getRoyalty ext s c t p =
          ((s.tokenRoyalties (c, t)).recipient, p * (s.tokenRoyalties (c, t)).percentage / 10000)) ∧
      (s.tokenRoyalties (c, t) = RoyaltyInfo.zero →
        (((s.contractRoyalties c).recipient ≠ 0 ∨ (s.contractRoyalties c).percentage > 0) →
          getRoyalty ext s c t p =
            ((s.contractRoyalties c).recipient, p * (s.contractRoyalties c).percentage / 10000)) ∧
        (s.contractRoyalties c = RoyaltyInfo.zero →
          ((s.defaultRoyalty.recipient ≠ 0 ∨ s.defaultRoyalty.percentage > 0) →
            getRoyalty ext s c t p =
              (s.defaultRoyalty.recipient, p * s.defaultRoyalty.percentage / 10000)) ∧
          (s.defaultRoyalty = RoyaltyInfo.zero → getRoyalty ext s c t p = (0, 0))))) := by
  refine ⟨?_, ?_, ?_⟩
  · intro r a hsupp hinfo hr0 hle
    have hstd : stdRoyaltyAnswer ext c t p = some (r, a) := by
      simp [stdRoyaltyAnswer, hsupp, hinfo, hr0, hle]
    simp [getRoyalty, hstd]
  · intro hcase
    rcases hcase with hs | hn | hbad
    · simp [stdRoyaltyAnswer, hs]
    · simp [stdRoyaltyAnswer, hn]
    · unfold stdRoyaltyAnswer
      rcases hro : ext.royaltyInfo c t p with _ | ⟨r, a⟩
      · simp
      · have hra := hbad r a hro
        have hneg : ¬ (r ≠ 0 ∧ a ≤ p / 10) := by
          rcases hra with h0 | hgt
          · simp [h0]
          · intro hcc
            omega
        simp [hneg]
  · intro hnone
    refine ⟨?_, ?_⟩
    · intro htok
      simp only [getRoyalty, hnone]
      rw [if_pos htok]
    · intro htz
      have htokf : ¬ ((s.tokenRoyalties (c, t)).recipient ≠ 0 ∨
          (s.tokenRoyalties (c, t)).percentage > 0) := by
        rw [htz]
        simp [RoyaltyInfo.zero]
      refine ⟨?_, ?_⟩
      · intro hcon
        simp only [getRoyalty, hnone]
        rw [if_neg htokf, if_pos hcon]
      · intro hcz
        have hconf : ¬ ((s.contractRoyalties c).recipient ≠ 0 ∨
            (s.contractRoyalties c).percentage > 0) := by
          rw [hcz]
          simp [RoyaltyInfo.zero]
        refine ⟨?_, ?_⟩
        · intro hdef
          simp only [getRoyalty, hnone]
          rw [if_neg htokf, if_neg hconf, if_pos hdef]
        · intro hdz
          have hdeff : ¬ (s.defaultRoyalty.recipient ≠ 0 ∨
              s.defaultRoyalty.percentage > 0) := by
            rw [hdz]
            simp [RoyaltyInfo.zero]
          simp only [getRoyalty, hnone]
          rw [if_neg htokf, if_neg hconf, if_neg hdeff]

/-- C9: if every stored royalty record respects the 1000 bps cap — the
invariant all three royalty setters maintain — then `getRoyalty` returns
an amount of at most `salePrice / 10` on every resolution path, the
external path included. -/
theorem royalty_amount_capped :
    (∀ ext s c t p, BoundedRoyalties s → (getRoyalty ext s c t p).2 ≤ p / 10) ∧
    (∀ q s r pct s2, setDefaultRoyalty q s r pct = .ok s2 →
      BoundedRoyalties s → BoundedRoyalties s2) ∧
    (∀ ext q s c r pct s2, setContractRoyalty ext q s c r pct = .ok s2 →
      BoundedRoyalties s → BoundedRoyalties s2) ∧
    (∀ ext q s c t r pct s2, setTokenRoyalty ext q s c t r pct = .ok s2 →
      BoundedRoyalties s → BoundedRoyalties s2) := by
  refine ⟨?_, ?_, ?_, ?_⟩
  · intro ext s c t p hb
    obtain ⟨hd, hc, ht⟩ := hb
    unfold getRoyalty
    split
    · rename_i ra hra
      unfold stdRoyaltyAnswer at hra
      split at hra
      · split at hra
        · rename_i r a
          split at hra
          · rename_i hcond
            simp only [Option.some.injEq] at hra
            subst hra
            exact hcond.2
          · simp at hra
        · simp at hra
      · simp at hra
    · dsimp only
      split_ifs
      · exact bps_div_le_tenth p _ (ht (c, t))
      · exact bps_div_le_tenth p _ (hc c)
      · exact bps_div_le_tenth p _ hd
      · simp
  · intro q s r pct s2 h hb
    obtain ⟨hd, hc, ht⟩ := hb
    simp only [setDefaultRoyalty, req_ok] at h
    obtain ⟨ho, hle, hrec, h⟩ := h
    simp only [Except.ok.injEq] at h
    subst h
    exact ⟨by simpa [MAX_ROYALTY_PERCENTAGE] using hle, hc, ht⟩
  · intro ext q s c r pct s2 h hb
    obtain ⟨hd, hcb, ht⟩ := hb
    simp only [setContractRoyalty, req_ok] at h
    obtain ⟨ho, hle, hrec, h⟩ := h
    simp only [Except.ok.injEq] at h
    subst h
    refine ⟨hd, ?_, ht⟩
    intro c2
    by_cases hc2 : c2 = c
    · subst hc2
      simpa [upd_self, MAX_ROYALTY_PERCENTAGE] using hle
    · simpa [upd_other _ _ _ _ hc2] using hcb c2
  · intro ext q s c t r pct s2 h hb
    obtain ⟨hd, hcb, ht⟩ := hb
    simp only [setTokenRoyalty, req_ok] at h
    obtain ⟨ho, hle, hrec, h⟩ := h
    simp only [Except.ok.injEq] at h
    subst h
    refine ⟨hd, hcb, ?_⟩
    intro k
    by_cases hk : k = (c, t)
    · subst hk
      simpa [upd_self, MAX_ROYALTY_PERCENTAGE] using hle
    · simpa [upd_other _ _ _ _ hk] using ht k

/-! ## Claim theorems: pause gating (C3) -/

theorem completeEscrowSplit_ok_of (price feePct : Nat) (h : feePct ≤ 10000) :
    completeEscrowSplit price feePct =
      .ok (price - price * feePct / 10000, price * feePct / 10000) := by
  rw [completeEscrowSplit_ok_iff]
  refine ⟨rfl, ?_, rfl⟩
  calc price * feePct / 10000 ≤ price * 10000 / 10000 :=
        Nat.div_le_div_right (Nat.mul_le_mul_left price h)
    _ = price := by omega

theorem completeEscrowInternal_ok_of (s : EscrowState) (i : Nat)
    (h : s.escrowFeePercentage ≤ 10000) :
    ∃ v, completeEscrowInternal s i = .ok v := by
  unfold completeEscrowInternal
  rw [completeEscrowSplit_ok_of _ _ h]
  exact ⟨_, rfl⟩

theorem approveEscrow_ok_of (ch : Chain) (s : EscrowState) (i : Nat)
    (hvalid : 0 < i ∧ i < s.nextEscrowId)
    (hact : (s.escrowTransactions i).status = EscrowStatus.Active)
    (hauth : ch.sender = (s.escrowTransactions i).seller ∨
      ch.sender = (s.escrowTransactions i).buyer)
    (hfee : s.escrowFeePercentage ≤ 10000) :
    ∃ r, approveEscrow ch s i = .ok r := by
  rcases hres : approveEscrow ch s i with msg | r
  · exfalso
    simp only [approveEscrow, req] at hres
    split_ifs at hres with h1 h2
    all_goals
      split at hres
      · rename_i msg2 heq
        unfold completeEscrowInternal at heq
        split at heq
        · rename_i msg3 heq2
          rw [completeEscrowSplit_ok_of] at heq2
          · exact absurd heq2 (by simp)
          · simpa using hfee
        · simp at heq
      · simp at hres
  · exact ⟨r, rfl⟩

theorem resolveDispute_ok_of (ch : Chain) (s : EscrowState) (i : Nat) (fb : Bool)
    (hres : ch.sender = s.disputeResolver)
    (hvalid : 0 < i ∧ i < s.nextEscrowId)
    (hdisp : (s.escrowTransactions i).status = EscrowStatus.Disputed)
    (hfee : s.escrowFeePercentage ≤ 10000) :
    ∃ r, resolveDispute ch s i fb = .ok r := by
  rcases hout : resolveDispute ch s i fb with msg | r
  · exfalso
    simp only [resolveDispute, req] at hout
    split_ifs at hout with h1
    split at hout
    · rename_i msg2 heq
      unfold completeEscrowInternal at heq
      split at heq
      · rename_i msg3 heq2
        rw [completeEscrowSplit_ok_of] at heq2
        · exact absurd heq2 (by simp)
        · simpa using hfee
      · simp at heq
    · simp at hout
  · exact ⟨r, rfl⟩

/-- C3 (amended): while paused, the creation-side mutators (`listItem`,
`buyItem`, `createOffer`, `acceptOffer`, `createEscrow`) revert with the
pause error; the remaining mutators (`cancelListing`, `updateListing`,
`cancelOffer`, `approveEscrow`, `cancelEscrow`, `initiateDispute`,
`resolveDispute`) carry no pause guard and succeed in a paused state
whenever their own preconditions hold; `emergencyWithdraw` succeeds
exactly for the owner while paused; views are unaffected by the flag. -/
theorem pause_gating :
    (∀ ch nft s c t p d, s.paused = true →
      listItem ch nft s c t p d = .error "Pausable: paused") ∧
    (∀ ch nft royalty s lid, s.paused = true →
      buyItem ch nft royalty s lid = .error "Pausable: paused") ∧
    (∀ ch s c t d, s.paused = true →
      createOffer ch s c t d = .error "Pausable: paused") ∧
    (∀ ch nft royalty s oid, s.paused = true →
      acceptOffer ch nft royalty s oid = .error "Pausable: paused") ∧
    (∀ ch nft s b c t dl, s.paused = true →
      createEscrow ch nft s b c t dl = .error "Pausable: paused") ∧
    (∀ ch s lid, s.paused = true →
      (ch.sender = (s.listings lid).seller ∨ ch.sender = s.owner) →
      (s.listings lid).active = true → ∃ s2, cancelListing ch s lid = .ok s2) ∧
    (∀ ch s lid np, s.paused = true → (s.listings lid).active = true →
      ch.timestamp < (s.listings lid).expiresAt → ch.sender = (s.listings lid).seller →
      0 < np → ∃ s2, updateListing ch s lid np = .ok s2) ∧
    (∀ ch s oid, s.paused = true → (s.offers oid).active = true →
      ch.timestamp < (s.offers oid).expiresAt →
      (ch.sender = (s.offers oid).buyer ∨ ch.sender = s.owner) →
      ∃ r, cancelOffer ch s oid = .ok r) ∧
    (∀ ch s i, s.paused = true → 0 < i ∧ i < s.nextEscrowId →
      (s.escrowTransactions i).status = EscrowStatus.Active →
      (ch.sender = (s.escrowTransactions i).seller ∨
        ch.sender = (s.escrowTransactions i).buyer) →
      s.escrowFeePercentage ≤ 1000 →
      ∃ r, approveEscrow ch s i = .ok r) ∧
    (∀ ch s i, s.paused = true → 0 < i ∧ i < s.nextEscrowId →
      (s.escrowTransactions i).status = EscrowStatus.Active →
      (ch.sender = (s.escrowTransactions i).seller ∨
        ch.sender = (s.escrowTransactions i).buyer) →
      ∃ r, cancelEscrow ch s i = .ok r) ∧
    (∀ ch s i, s.paused = true → 0 < i ∧ i < s.nextEscrowId →
      (s.escrowTransactions i).status = EscrowStatus.Active →
      (ch.sender = (s.escrowTransactions i).seller ∨
        ch.sender = (s.escrowTransactions i).buyer) →
      ch.timestamp ≤ (s.escrowTransactions i).deadline + s.disputeWindow →
      ∃ s2, initiateDispute ch s i = .ok s2) ∧
    (∀ ch s i fb, s.paused = true → ch.sender = s.disputeResolver →
      0 < i ∧ i < s.nextEscrowId →
      (s.escrowTransactions i).status = EscrowStatus.Disputed →
      s.escrowFeePercentage ≤ 1000 →
      ∃ r, resolveDispute ch s i fb = .ok r) ∧
    (∀ ch s, marketEmergencyWithdraw ch s = .ok s ↔
      ch.sender = s.owner ∧ s.paused = true) ∧
    (∀ ch s, escrowEmergencyWithdraw ch s = .ok s ↔
      ch.sender = s.owner ∧ s.paused = true) ∧
    (∀ s b lid, getListing { s with paused := b } lid = getListing s lid) ∧
    (∀ s b i, getEscrow { s with paused := b } i = getEscrow s i) := by
  refine ⟨?_, ?_, ?_, ?_, ?_, ?_, ?_, ?_, ?_, ?_, ?_, ?_, ?_, ?_, ?_, ?_⟩
  · intro ch nft s c t p d hp
    exact req_fail _ _ _ (by simp [hp])
  · intro ch nft royalty s lid hp
    exact req_fail _ _ _ (by simp [hp])
  · intro ch s c t d hp
    exact req_fail _ _ _ (by simp [hp])
  · intro ch nft royalty s oid hp
    exact req_fail _ _ _ (by simp [hp])
  · intro ch nft s b c t dl hp
    exact req_fail _ _ _ (by simp [hp])
  · intro ch s lid hp hauth hact
    simp only [cancelListing, req_ok]
    exact ⟨_, hauth, hact, rfl⟩
  · intro ch s lid np hp hact hexp hsell hpr
    simp only [updateListing, req_ok]
    exact ⟨_, hact, hexp, hsell, hpr, rfl⟩
  · intro ch s oid hp hact hexp hauth
    simp only [cancelOffer, req_ok]
    exact ⟨_, hact, hexp, hauth, rfl⟩
  · intro ch s i hp hvalid hact hauth hfee
    exact approveEscrow_ok_of ch s i hvalid hact hauth (by omega)
  · intro ch s i hp hvalid hact hauth
    exact ⟨_, cancelEscrow_ok_of ch s i hvalid hact (by tauto)⟩
  · intro ch s i hp hvalid hact hauth hwin
    simp only [initiateDispute, req_ok]
    exact ⟨_, hvalid, hact, hauth, hwin, rfl⟩
  · intro ch s i fb hp hres hvalid hdisp hfee
    exact resolveDispute_ok_of ch s i fb hres hvalid hdisp (by omega)
  · intro ch s
    constructor
    · intro h
      simp only [marketEmergencyWithdraw, req_ok] at h
      exact ⟨h.1, by simpa using h.2.1⟩
    · intro h
      simp only [marketEmergencyWithdraw, req_ok]
      exact ⟨h.1, by simp [h.2], trivial⟩
  · intro ch s
    constructor
    · intro h
      simp only [escrowEmergencyWithdraw, req_ok] at h
      exact ⟨h.1, by simpa using h.2.1⟩
    · intro h
      simp only [escrowEmergencyWithdraw, req_ok]
      exact ⟨h.1, by simp [h.2], trivial⟩
  · intro s b lid
    rfl
  · intro s b i
    rfl

/-- C3 counterexample: `demoM4` is a reachable paused marketplace state
in which the state-mutating, non-emergency operation `cancelOffer`
nevertheless succeeds and changes state (the held 500 wei are refunded to
buyer 11 and the offer is deactivated), refuting "the pause flag rejects
every state-mutating operation except emergencyWithdraw". -/
theorem paused_cancelOffer_succeeds_cex :
    MReachable demoM4 ∧ demoM4.paused = true ∧
    (demoM4.offers (11, 20, 7, 110)).active = true ∧
    cancelOffer ⟨130, 11, 0⟩ demoM4 (11, 20, 7, 110) = .ok (demoM5, 11, 500) ∧
    (demoM5.offers (11, 20, 7, 110)).active = false := by
  have h0 : MReachable demoM0 := MReachable.init 1 2 4
  have h1 : MReachable demoM1 :=
    MReachable.step _ _ h0 (MStep.setContractWhitelist ⟨0, 1, 0⟩ 20 true _ _ rfl)
  have h2 : MReachable demoM2 :=
    MReachable.step _ _ h1 (MStep.listItem ⟨100, 10, 0⟩ demoNft 20 7 1000 1000 _ _ rfl)
  have h3 : MReachable demoM3 :=
    MReachable.step _ _ h2 (MStep.createOffer ⟨110, 11, 500⟩ 20 7 1000 _ _ rfl)
  have h4 : MReachable demoM4 :=
    MReachable.step _ _ h3 (MStep.pause ⟨120, 1, 0⟩ _ _ rfl)
  exact ⟨h4, rfl, rfl, rfl, rfl⟩

/-! ## Claim theorems: listing uniqueness (C5) -/

theorem listingInv_congr (s s2 : MarketState) (hl : s2.listings = s.listings)
    (ht : s2.tokenToListingId = s.tokenToListingId) (hInv : ListingInv s) :
    ListingInv s2 := by
  intro lid hact
  rw [hl] at hact
  rw [hl, ht]
  exact hInv lid hact

theorem listingInv_deactivate (s s2 : MarketState) (lid : ListingId)
    (hInv : ListingInv s) (hact : (s.listings lid).active = true)
    (hl : s2.listings = upd s.listings lid { s.listings lid with active := false })
    (ht : s2.tokenToListingId = upd s.tokenToListingId
      ((s.listings lid).nftContract, (s.listings lid).tokenId) none) :
    ListingInv s2 := by
  intro lid2 hact2
  rw [hl] at hact2
  rw [hl, ht]
  by_cases he : lid2 = lid
  · subst he
    rw [upd_self] at hact2
    simp at hact2
  · rw [upd_other _ _ _ _ he] at hact2
    rw [upd_other _ _ _ _ he]
    have hmap := hInv lid2 hact2
    have hmap2 := hInv lid hact
    have hne : ((s.listings lid2).nftContract, (s.listings lid2).tokenId) ≠
        ((s.listings lid).nftContract, (s.listings lid).tokenId) := by
      intro heq
      rw [heq, hmap2] at hmap
      injection hmap with hh
      exact he hh.symm
    rw [upd_other _ _ _ _ hne]
    exact hmap

theorem listingInv_setprice (s s2 : MarketState) (lid : ListingId) (np : Nat)
    (hInv : ListingInv s)
    (hl : s2.listings = upd s.listings lid { s.listings lid with price := np })
    (ht : s2.tokenToListingId = s.tokenToListingId) :
    ListingInv s2 := by
  intro lid2 hact2
  rw [hl] at hact2
  rw [hl, ht]
  by_cases he : lid2 = lid
  · subst he
    rw [upd_self] at hact2 ⊢
    exact hInv lid2 hact2
  · rw [upd_other _ _ _ _ he] at hact2 ⊢
    exact hInv lid2 hact2

theorem listingInv_insert (s1 s2 : MarketState) (nid : ListingId) (L : Listing)
    (c t : Nat) (hInv1 : ListingInv s1)
    (hnoactive : ∀ lid2, (s1.listings lid2).active = true →
      ((s1.listings lid2).nftContract, (s1.listings lid2).tokenId) ≠ (c, t))
    (hLc : L.nftContract = c) (hLt : L.tokenId = t)
    (hl : s2.listings = upd s1.listings nid L)
    (ht2 : s2.tokenToListingId = upd s1.tokenToListingId (c, t) (some nid)) :
    ListingInv s2 := by
  intro lid2 hact2
  rw [hl] at hact2
  rw [hl, ht2]
  by_cases he : lid2 = nid
  · subst he
    rw [upd_self] at hact2
    simp [upd, hLc, hLt]
  · rw [upd_other _ _ _ _ he] at hact2
    rw [upd_other _ _ _ _ he]
    have hmap := hInv1 lid2 hact2
    have hne := hnoactive lid2 hact2
    rw [upd_other _ _ _ _ hne]
    exact hmap

theorem listingInv_listItem (ch : Chain) (nft : NftEnv) (s : MarketState)
    (c t p d : Nat) (s2 : MarketState) (h : listItem ch nft s c t p d = .ok s2)
    (hInv : ListingInv s) : ListingInv s2 := by
  simp only [listItem, req_ok] at h
  obtain ⟨hp, hw, hpr, hdur, how, hap, hnew, h⟩ := h
  rcases hm : s.tokenToListingId (c, t) with _ | eid
  · simp only [hm] at h
    simp only [Except.ok.injEq] at h
    subst h
    refine listingInv_insert s _ (c, t, ch.timestamp) _ c t hInv ?_ rfl rfl rfl rfl
    intro lid2 hact2 heq
    have hmap := hInv lid2 hact2
    rw [heq, hm] at hmap
    cases hmap
  · simp only [hm] at h
    by_cases hea : (s.listings eid).active = true
    · rw [if_pos hea] at h
      simp only [Except.ok.injEq] at h
      subst h
      have hInv1 : ListingInv (cancelListingInternal s eid) :=
        listingInv_deactivate s _ eid hInv hea rfl rfl
      refine listingInv_insert (cancelListingInternal s eid) _ (c, t, ch.timestamp) _
        c t hInv1 ?_ rfl rfl rfl rfl
      intro lid2 hact2 heq
      by_cases hne : lid2 = eid
      · subst hne
        simp only [cancelListingInternal, upd_self] at hact2
        simp at hact2
      · simp only [cancelListingInternal] at hact2 heq
        rw [upd_other _ _ _ _ hne] at hact2 heq
        have hmap := hInv lid2 hact2
        rw [heq] at hmap
        rw [hm] at hmap
        injection hmap with hh
        exact hne hh.symm
    · rw [if_neg hea] at h
      simp only [Except.ok.injEq] at h
      subst h
      refine listingInv_insert s _ (c, t, ch.timestamp) _ c t hInv ?_ rfl rfl rfl rfl
      intro lid2 hact2 heq
      have hmap := hInv lid2 hact2
      rw [heq, hm] at hmap
      injection hmap with hh
      subst hh
      exact hea hact2

theorem listingInv_buyItem (ch : Chain) (nft : NftEnv)
    (royalty : Nat → Nat → Nat → Nat × Nat) (s : MarketState) (lid : ListingId)
    (s2 : MarketState) (outs : SaleOuts)
    (h : buyItem ch nft royalty s lid = .ok (s2, outs)) (hInv : ListingInv s) :
    ListingInv s2 := by
  simp only [buyItem, req_ok] at h
  obtain ⟨hp, hact, hexp, hval, hsell, hown, h⟩ := h
  split at h
  · simp at h
  · simp only [Except.ok.injEq, Prod.mk.injEq] at h
    obtain ⟨h1, h2⟩ := h
    subst h1
    exact listingInv_deactivate s _ lid hInv hact rfl rfl

theorem listingInv_acceptOffer (ch : Chain) (nft : NftEnv)
    (royalty : Nat → Nat → Nat → Nat × Nat) (s : MarketState) (oid : OfferId)
    (s2 : MarketState) (outs : SaleOuts)
    (h : acceptOffer ch nft royalty s oid = .ok (s2, outs)) (hInv : ListingInv s) :
    ListingInv s2 := by
  simp only [acceptOffer, req_ok] at h
  obtain ⟨hp, hact, hexp, hown, happ, h⟩ := h
  split at h
  · simp at h
  · rename_i sa fee heq
    rcases hm : s.tokenToListingId ((s.offers oid).nftContract, (s.offers oid).tokenId)
      with _ | eid
    · simp only [hm] at h
      simp only [Except.ok.injEq, Prod.mk.injEq] at h
      obtain ⟨h1, h2⟩ := h
      subst h1
      exact listingInv_congr _ _ rfl rfl hInv
    · simp only [hm] at h
      by_cases hea : (s.listings eid).active = true
      · rw [if_pos hea] at h
        simp only [Except.ok.injEq, Prod.mk.injEq] at h
        obtain ⟨h1, h2⟩ := h
        subst h1
        exact listingInv_deactivate s _ eid hInv hea rfl rfl
      · rw [if_neg hea] at h
        simp only [Except.ok.injEq, Prod.mk.injEq] at h
        obtain ⟨h1, h2⟩ := h
        subst h1
        exact listingInv_congr _ _ rfl rfl hInv

theorem listingInv_step (s s2 : MarketState) (h : MStep s s2) (hInv : ListingInv s) :
    ListingInv s2 := by
  cases h
  case listItem ch nft c t p d hop =>
    exact listingInv_listItem ch nft s c t p d s2 hop hInv
  case buyItem ch nft royalty lid outs hop =>
    exact listingInv_buyItem ch nft royalty s lid s2 outs hop hInv
  case cancelListing ch lid hop =>
    simp only [cancelListing, req_ok] at hop
    obtain ⟨hauth, hact, hop⟩ := hop
    simp only [Except.ok.injEq] at hop
    subst hop
    exact listingInv_deactivate s _ lid hInv hact rfl rfl
  case updateListing ch lid np hop =>
    simp only [updateListing, req_ok] at hop
    obtain ⟨hact, hexp, hsell, hpr, hop⟩ := hop
    simp only [Except.ok.injEq] at hop
    subst hop
    exact listingInv_setprice s _ lid np hInv rfl rfl
  case createOffer ch c t d hop =>
    simp only [createOffer, req_ok] at hop
    obtain ⟨_, _, _, _, hop⟩ := hop
    simp only [Except.ok.injEq] at hop
    subst hop
    exact listingInv_congr _ _ rfl rfl hInv
  case acceptOffer ch nft royalty oid outs hop =>
    exact listingInv_acceptOffer ch nft royalty s oid s2 outs hop hInv
  case cancelOffer ch oid rto ramt hop =>
    simp only [cancelOffer, req_ok] at hop
    obtain ⟨_, _, _, hop⟩ := hop
    simp only [Except.ok.injEq, Prod.mk.injEq] at hop
    obtain ⟨h1, _, _⟩ := hop
    subst h1
    exact listingInv_congr _ _ rfl rfl hInv
  case setContractWhitelist ch c w hop =>
    simp only [marketSetContractWhitelist, req_ok] at hop
    obtain ⟨_, hop⟩ := hop
    simp only [Except.ok.injEq] at hop
    subst hop
    exact listingInv_congr _ _ rfl rfl hInv
  case setMarketplaceFee ch pct hop =>
    simp only [setMarketplaceFee, req_ok] at hop
    obtain ⟨_, _, hop⟩ := hop
    simp only [Except.ok.injEq] at hop
    subst hop
    exact listingInv_congr _ _ rfl rfl hInv
  case setFeeRecipient ch a hop =>
    simp only [marketSetFeeRecipient, req_ok] at hop
    obtain ⟨_, _, hop⟩ := hop
    simp only [Except.ok.injEq] at hop
    subst hop
    exact listingInv_congr _ _ rfl rfl hInv
  case pause ch hop =>
    simp only [marketPause, req_ok] at hop
    obtain ⟨_, _, hop⟩ := hop
    simp only [Except.ok.injEq] at hop
    subst hop
    exact listingInv_congr _ _ rfl rfl hInv
  case unpause ch hop =>
    simp only [marketUnpause, req_ok] at hop
    obtain ⟨_, _, hop⟩ := hop
    simp only [Except.ok.injEq] at hop
    subst hop
    exact listingInv_congr _ _ rfl rfl hInv
  case emergencyWithdraw ch hop =>
    simp only [marketEmergencyWithdraw, req_ok] at hop
    obtain ⟨_, _, hop⟩ := hop
    simp only [Except.ok.injEq] at hop
    subst hop
    exact hInv

theorem listingInv_reachable (s : MarketState) (h : MReachable s) : ListingInv s := by
  induction h with
  | init o f a =>
    intro lid hact
    simp [initMarketState, Listing.zero] at hact
  | step s1 s2 hr hstep ih =>
    exact listingInv_step s1 s2 hstep ih

/-- C5: in every reachable marketplace state there is at most one active
listing per (asset registry, asset id) pair, and a successful `listItem`
for an asset that already has an active listing deactivates that prior
listing and records the new listing as the asset's active one. -/
theorem unique_active_listing :
    (∀ s, MReachable s → ∀ lid1 lid2,
      (s.listings lid1).active = true → (s.listings lid2).active = true →
      (s.listings lid1).nftContract = (s.listings lid2).nftContract →
      (s.listings lid1).tokenId = (s.listings lid2).tokenId → lid1 = lid2) ∧
    (∀ ch nft s c t p d s2 oldId, listItem ch nft s c t p d = .ok s2 →
      s.tokenToListingId (c, t) = some oldId → (s.listings oldId).active = true →
      (s2.listings oldId).active = false ∧
      s2.tokenToListingId (c, t) = some (c, t, ch.timestamp) ∧
      (s2.listings (c, t, ch.timestamp)).active = true) := by
  constructor
  · intro s hr lid1 lid2 h1 h2 hc ht2
    have hInv := listingInv_reachable s hr
    have m1 := hInv lid1 h1
    have m2 := hInv lid2 h2
    rw [hc, ht2, m2] at m1
    injection m1 with hh
    exact hh.symm
  · intro ch nft s c t p d s2 oldId h hm hold
    simp only [listItem, req_ok] at h
    obtain ⟨hp, hw, hpr, hdur, how, hap, hnew, h⟩ := h
    simp only [hm] at h
    rw [if_pos hold] at h
    simp only [Except.ok.injEq] at h
    subst h
    have hne : oldId ≠ ((c, t, ch.timestamp) : ListingId) := by
      intro hcontra
      rw [hcontra] at hold
      exact hnew hold
    refine ⟨?_, ?_, ?_⟩
    · simp [cancelListingInternal, upd, hne]
    · simp [upd]
    · simp [upd]

/-! ## Witnesses: each claim theorem applied at a concrete input -/

/-- C1 witness: in the concrete purchase `demoBuy` (price 1000, fee 250
bps, 5% royalty) the computed split sums to the price exactly. -/
theorem settlement_split_exact_witness :
    demoBuy.2.sellerAmount + demoBuy.2.marketplaceFee + demoBuy.2.royaltyAmount = 1000 :=
  settlement_split_exact.1 ⟨150, 11, 1500⟩ demoNft demoRoyaltyCall demoM2 (20, 7, 100)
    demoBuy.1 demoBuy.2 rfl

/-- C2 witness: after the seller's single approval of escrow 1 the
completion status is equivalent to both flags being set (and indeed the
escrow is still Active there). -/
theorem escrow_completion_flags_witness :
    ((demoEscA.escrowTransactions 1).status = EscrowStatus.Completed ↔
      (demoEscA.escrowTransactions 1).sellerApproved = true ∧
      (demoEscA.escrowTransactions 1).buyerApproved = true) :=
  escrow_completion_flags.1 ⟨150, 10, 0⟩ demoEsc2 1 demoEscA none rfl

/-- C3 witness: `listItem` reverts with the pause error in the paused
reachable state `demoM4`. -/
theorem pause_gating_witness :
    listItem ⟨130, 10, 0⟩ demoNft demoM4 20 7 1000 1000 = .error "Pausable: paused" :=
  pause_gating.1 ⟨130, 10, 0⟩ demoNft demoM4 20 7 1000 1000 rfl

/-- C4 witness: the demo registry's accepted EIP-2981 answer (recipient 9,
5% of a 1000 wei sale) is returned as-is. -/
theorem royalty_resolution_order_witness :
    getRoyalty demoRoyExt demoRoyState 5 7 1000 = (9, 50) :=
  (royalty_resolution_order demoRoyExt demoRoyState 5 7 1000).1 9 50 rfl rfl
    (by decide) (by decide)

/-- C5 witness: re-listing token 7 while listing (20, 7, 100) is active
deactivates the old listing and records the new one. -/
theorem unique_active_listing_witness :
    (demoRelist.listings (20, 7, 100)).active = false ∧
    demoRelist.tokenToListingId (20, 7) = some (20, 7, 200) ∧
    (demoRelist.listings (20, 7, 200)).active = true :=
  unique_active_listing.2 ⟨200, 10, 0⟩ demoNft demoM2 20 7 2000 1000 demoRelist
    (20, 7, 100) rfl rfl rfl

/-- C6 witness: the concrete purchase `demoBuy` refunds exactly
1500 - 1000 = 500 wei and deactivates the listing. -/
theorem buyItem_guards_and_refund_witness :
    1000 ≤ 1500 ∧ demoBuy.2.refund = 500 ∧
    (demoBuy.1.listings (20, 7, 100)).active = false :=
  buyItem_guards_and_refund.2.2 ⟨150, 11, 1500⟩ demoNft demoRoyaltyCall demoM2
    (20, 7, 100) demoBuy.1 demoBuy.2 rfl

/-- C7 witness: buyer 11's successful `cancelOffer` in `demoM4` refunds
the held 500 wei to the buyer and deactivates the offer. -/
theorem cancelOffer_auth_refund_witness :
    ((11 : Nat) = (demoM4.offers (11, 20, 7, 110)).buyer ∨ (11 : Nat) = demoM4.owner) ∧
    (11 : Nat) = (demoM4.offers (11, 20, 7, 110)).buyer ∧
    (500 : Nat) = (demoM4.offers (11, 20, 7, 110)).amount ∧
    (demoM5.offers (11, 20, 7, 110)).active = false :=
  cancelOffer_auth_refund.1 ⟨130, 11, 0⟩ demoM4 (11, 20, 7, 110) demoM5 11 500 rfl

/-- C8 witness: a stranger (address 99) can cancel escrow 1 once the
deadline 500 has passed (time 600), with the full price refunded. -/
theorem cancelEscrow_deadline_auth_witness :
    ∃ s2, cancelEscrow ⟨600, 99, 0⟩ demoEsc2 1 =
      .ok (s2, (demoEsc2.escrowTransactions 1).seller,
        (demoEsc2.escrowTransactions 1).price) :=
  (cancelEscrow_deadline_auth ⟨600, 99, 0⟩ demoEsc2 1 (by decide) rfl).2.1 (by decide)

/-- C9 witness: in the freshly deployed (all-zero, hence bounded) royalty
state the returned amount is within a tenth of the 1000 wei sale price. -/
theorem royalty_amount_capped_witness :
    (getRoyalty demoRoyExt demoRoyState 5 7 1000).2 ≤ 100 :=
  royalty_amount_capped.1 demoRoyExt demoRoyState 5 7 1000
    ⟨Nat.zero_le 1000, fun _ => Nat.zero_le 1000, fun _ => Nat.zero_le 1000⟩

/-- C10 witness: the split of a 1000 wei price at 250 bps fee with a 50
wei royalty succeeds with sellerAmount 925 and fee 25. -/
theorem split_no_underflow_witness :
    marketSplit 1000 250 50 = .ok (925, 25) :=
  split_no_underflow.1 1000 250 50 (by decide) (by decide)
